import Mathlib

/-!
# Sensors: HTU21D and TSL2561 drivers

A shallow embedding of `htu21d.go` and `tsl2561.go`.

* The I2C transport (`github.com/davecheney/i2c`) is external: it is a parameter
  `Transport σ`, a deterministic machine over an arbitrary device state `σ` whose
  every operation may fail with a `BusError`.
* Every bus operation and every `time.Sleep` a driver performs is appended to a
  trace kept next to the device state, so that "which writes were issued" is a
  statement about a list of events.
* `uint16` arithmetic is arithmetic on `Nat` reduced `% 65536` after every operation.
* `float32` values are rationals; every float32 operation applies the rounding
  `Float32Model.rnd` to the exact result. The rounding is a parameter: the only
  thing known about it is the relative error of binary32 round-to-nearest.
  `Float32Model.binary32` is that rounding, `Float32Model.exact` rounds nothing.
  Every operation of an expression is rounded on its own (no fused multiply-add),
  and `math.Pow(2, 16)` is `65536`.
  The results of a division by zero (`+Inf`, `-Inf`, `NaN`) are values of `F32`.
-/

namespace Sensors

/-! ## The transport -/

/-- One byte on the wire. -/
abbrev Byte := Fin 256

/-- The error value a failing bus operation returns. -/
structure BusError where
  code : Nat
deriving DecidableEq, Repr

/-- The injected I2C device: `WriteByte`, `Write` and `Read` of the i2c package.
`read d n` is a read into a buffer of `n` bytes: it answers the bytes the device
delivered and the error, if any. -/
structure Transport (σ : Type) where
  writeByte : σ → Byte → σ × Option BusError
  write : σ → List Byte → σ × Option BusError
  read : σ → Nat → σ × List Byte × Option BusError

/-- What a driver did, in the order it did it. -/
inductive Event where
  | writeByte (b : Byte) (err : Option BusError)
  | write (p : List Byte) (err : Option BusError)
  | read (n : Nat) (data : List Byte) (err : Option BusError)
  | sleep (ms : Nat)
deriving DecidableEq, Repr

/-- The error of a bus operation of the trace (`none` for a sleep or a success). -/
def Event.err : Event → Option BusError
  | .writeByte _ e => e
  | .write _ e => e
  | .read _ _ e => e
  | .sleep _ => none

/-- The event is a bus operation (not a sleep). -/
def Event.isBusOp : Event → Bool
  | .sleep _ => false
  | _ => true

/-- The event is a bus write (`WriteByte` or `Write`). -/
def Event.isWrite : Event → Bool
  | .writeByte _ _ => true
  | .write _ _ => true
  | _ => false

/-- The field `i2c *i2c.I2C` of a sensor: the device state and the trace so far. -/
structure I2C (σ : Type) where
  dev : σ
  trace : List Event

/-- A buffer `make([]byte, n)` after the device copied `data` into it. -/
def fill (n : Nat) (data : List Byte) : List Byte :=
  (data ++ List.replicate n 0).take n

/-- The call `i2c.WriteByte(b)`. -/
def I2C.WriteByte {σ : Type} (T : Transport σ) (h : I2C σ) (b : Byte) :
    I2C σ × Option BusError :=
  let r := T.writeByte h.dev b
  ({ dev := r.1, trace := h.trace ++ [Event.writeByte b r.2] }, r.2)

/-- The call `i2c.Write(p)`. -/
def I2C.Write {σ : Type} (T : Transport σ) (h : I2C σ) (p : List Byte) :
    I2C σ × Option BusError :=
  let r := T.write h.dev p
  ({ dev := r.1, trace := h.trace ++ [Event.write p r.2] }, r.2)

/-- The call `i2c.Read(res)` with `res := make([]byte, n)`: answers the buffer. -/
def I2C.Read {σ : Type} (T : Transport σ) (h : I2C σ) (n : Nat) :
    I2C σ × List Byte × Option BusError :=
  let r := T.read h.dev n
  ({ dev := r.1, trace := h.trace ++ [Event.read n r.2.1 r.2.2] }, fill n r.2.1, r.2.2)

/-- The call `time.Sleep(ms * time.Millisecond)`. -/
def I2C.Sleep {σ : Type} (h : I2C σ) (ms : Nat) : I2C σ :=
  { h with trace := h.trace ++ [Event.sleep ms] }

/-! ## float32 -/

/-- The float32 arithmetic of the drivers: `rnd` rounds an exact result to
float32, `pow` is `math.Pow`. `rnd_rel` is the error of round-to-nearest with a
24 bit significand (no driver value leaves the normal range). -/
structure Float32Model where
  rnd : ℚ → ℚ
  pow : ℚ → ℚ → ℚ
  rnd_rel : ∀ x : ℚ, |rnd x - x| ≤ |x| / 2 ^ 24

/-- Exact arithmetic: nothing is rounded. `pow` is only defined as a placeholder
of the right type (the power is not rational). -/
def Float32Model.exact (pow : ℚ → ℚ → ℚ) : Float32Model where
  rnd := fun x => x
  pow := pow
  rnd_rel := fun x => by
    simp only [sub_self, abs_zero]
    positivity

/-- Exact arithmetic with the identity in the place of `math.Pow`: the model the
concrete evaluations below run in. -/
def Float32Model.plain : Float32Model := Float32Model.exact (fun x _ => x)

/-- Round to the nearest integer, ties to even. -/
def roundEven (q : ℚ) : ℤ :=
  let f := ⌊q⌋
  if q - f < 1 / 2 then f
  else if 1 / 2 < q - f then f + 1
  else if f % 2 = 0 then f else f + 1

/-- The unit in the last place of a 24 bit significand for `x`: `2 ^ (e - 23)`
with `2 ^ e <= |x| < 2 ^ (e + 1)`. -/
def ulp32 (x : ℚ) : ℚ := (2 : ℚ) ^ (Int.log 2 |x| - 23)

/-- Rounding to binary32: to nearest, ties to even, 24 bit significand. The
exponent is not bounded, so this is IEEE 754 binary32 on the normal range
`2 ^ (-126) <= |x| < 2 ^ 128`, which no value of the drivers leaves. -/
def roundBinary32 (x : ℚ) : ℚ := (roundEven (x / ulp32 x) : ℚ) * ulp32 x

/-- The float32 arithmetic of Go on the normal range, for a given `math.Pow`. -/
def Float32Model.binary32 (pow : ℚ → ℚ → ℚ) : Float32Model where
  rnd := roundBinary32
  pow := pow
  rnd_rel := fun x => by
    have hr : ∀ q : ℚ, |(roundEven q : ℚ) - q| ≤ 1 / 2 := by
      intro q
      have h1 := Int.floor_le q
      have h2 := Int.lt_floor_add_one q
      unfold roundEven
      simp only
      split_ifs with a b c
      · rw [abs_le]; constructor <;> linarith
      · rw [abs_le]; push_cast; constructor <;> linarith
      · rw [abs_le]; constructor <;> linarith
      · rw [abs_le]; push_cast; constructor <;> linarith
    by_cases hx : x = 0
    · subst hx
      simp [roundBinary32, roundEven]
    · have hpos : (0 : ℚ) < |x| := abs_pos.mpr hx
      have hu : (0 : ℚ) < ulp32 x := by unfold ulp32; positivity
      have hle : (2 : ℚ) ^ Int.log 2 |x| ≤ |x| := Int.zpow_log_le_self (by norm_num) hpos
      have hu2 : ulp32 x = (2 : ℚ) ^ Int.log 2 |x| / 2 ^ 23 := by
        unfold ulp32
        rw [zpow_sub₀ (by norm_num)]
        norm_num
      have e : roundBinary32 x - x
          = ((roundEven (x / ulp32 x) : ℚ) - x / ulp32 x) * ulp32 x := by
        unfold roundBinary32
        field_simp
      rw [e, abs_mul, abs_of_pos hu]
      calc |(roundEven (x / ulp32 x) : ℚ) - x / ulp32 x| * ulp32 x
          ≤ 1 / 2 * ulp32 x := mul_le_mul_of_nonneg_right (hr _) hu.le
        _ = (2 : ℚ) ^ Int.log 2 |x| / 2 ^ 24 := by rw [hu2]; ring
        _ ≤ |x| / 2 ^ 24 := div_le_div_of_nonneg_right hle (by norm_num)

/-- A float32 value: finite, or what a division by zero gives. -/
inductive F32 where
  | fin (q : ℚ)
  | posInf
  | negInf
  | nan
deriving DecidableEq, Repr

/-- The comparison `x <= c` of a float32 with a finite float32. -/
def F32.le (x : F32) (c : ℚ) : Bool :=
  match x with
  | .fin q => decide (q ≤ c)
  | .negInf => true
  | .posInf => false
  | .nan => false

/-- The comparison `x >= c`. -/
def F32.ge (x : F32) (c : ℚ) : Bool :=
  match x with
  | .fin q => decide (c ≤ q)
  | .posInf => true
  | .negInf => false
  | .nan => false

/-- The comparison `x > c`. -/
def F32.gt (x : F32) (c : ℚ) : Bool :=
  match x with
  | .fin q => decide (c < q)
  | .posInf => true
  | .negInf => false
  | .nan => false

/-- A float32 constant of the source: the decimal literal rounded. -/
def Float32Model.const (M : Float32Model) (c : ℚ) : ℚ := M.rnd c

/-- Float32 addition of finite values. -/
def Float32Model.add (M : Float32Model) (a b : ℚ) : ℚ := M.rnd (a + b)

/-- Float32 subtraction of finite values. -/
def Float32Model.sub (M : Float32Model) (a b : ℚ) : ℚ := M.rnd (a - b)

/-- Float32 multiplication of finite values. -/
def Float32Model.mul (M : Float32Model) (a b : ℚ) : ℚ := M.rnd (a * b)

/-- Float32 division of finite values by a non-zero divisor. -/
def Float32Model.div (M : Float32Model) (a b : ℚ) : ℚ := M.rnd (a / b)

/-- Float32 division `a / b` of finite values, the divisor possibly zero. -/
def Float32Model.quot (M : Float32Model) (a b : ℚ) : F32 :=
  if b = 0 then
    (if a = 0 then F32.nan else if 0 < a then F32.posInf else F32.negInf)
  else F32.fin (M.div a b)

/-- The value `float32(math.Pow(float64(x), y))` for a float32 `x`; a non-finite
`x` is never passed by the drivers. -/
def Float32Model.powF (M : Float32Model) (x : F32) (y : ℚ) : ℚ :=
  match x with
  | .fin q => M.rnd (M.pow q y)
  | _ => 0

/-! ## HTU21D -/

/-- The constant `HTU21D_ADDR`. -/
def HTU21D_ADDR : Byte := 0x40

/-- The struct `HTU21D`. `RefreshInterval` is a `time.Duration` counted in
seconds by the refresh loop; `quit` is the channel `quit chan bool`, `none` for
the nil channel. -/
structure HTU21D (σ : Type) where
  RefreshInterval : Nat
  Temperature : ℚ
  Humidity : ℚ
  address : Byte
  bus : Int
  i2c : I2C σ
  refresh : Bool
  quit : Option Nat

/-- The raw 16 bit word of a measurement: `uint16(res[0])*uint16(256) + uint16(res[1])`
with the two status bits reset (`& 0xFFFC`). -/
def rawWord (res : List Byte) : Nat :=
  let raw := (((res.getD 0 0).val * 256) % 65536 + (res.getD 1 0).val) % 65536
  raw &&& 0xFFFC

/-- The conversion `-46.85 + (175.72 * (float32(raw_temp) / float32(math.Pow(2, 16))))`. -/
def tempOfRaw (M : Float32Model) (raw_temp : Nat) : ℚ :=
  M.add (M.const (-46.85)) (M.mul (M.const 175.72) (M.div (raw_temp : ℚ) ((2 : ℚ) ^ 16)))

/-- The conversion `-6 + (125 * (float32(raw_humidity) / float32(math.Pow(2, 16))))`. -/
def humidityOfRaw (M : Float32Model) (raw_humidity : Nat) : ℚ :=
  M.add (M.const (-6)) (M.mul (M.const 125) (M.div (raw_humidity : ℚ) ((2 : ℚ) ^ 16)))

/-- The method `ReadTemperature`: the sensor afterwards, the value and the error. -/
def HTU21D.ReadTemperature {σ : Type} (T : Transport σ) (M : Float32Model)
    (this : HTU21D σ) : HTU21D σ × ℚ × Option BusError :=
  let w := this.i2c.WriteByte T 0xF3
  match w.2 with
  | some err => ({ this with i2c := w.1 }, 0, some err)
  | none =>
    let h := w.1.Sleep 100
    let r := h.Read T 3
    match r.2.2 with
    | some err => ({ this with i2c := r.1 }, 0, some err)
    | none =>
      let raw_temp := rawWord r.2.1
      let temp := tempOfRaw M raw_temp
      ({ this with i2c := r.1 }, temp, none)

/-- The method `ReadHumidity`. -/
def HTU21D.ReadHumidity {σ : Type} (T : Transport σ) (M : Float32Model)
    (this : HTU21D σ) : HTU21D σ × ℚ × Option BusError :=
  let w := this.i2c.WriteByte T 0xF5
  match w.2 with
  | some err => ({ this with i2c := w.1 }, 0, some err)
  | none =>
    let h := w.1.Sleep 100
    let r := h.Read T 3
    match r.2.2 with
    | some err => ({ this with i2c := r.1 }, 0, some err)
    | none =>
      let raw_humidity := rawWord r.2.1
      let humidity := humidityOfRaw M raw_humidity
      ({ this with i2c := r.1 }, humidity, none)

/-- The struct `NewHTU21D` builds, on the device `i2c.New` opened:
`&HTU21D{address: address, bus: bus, RefreshInterval: 10}`, every other field
at its zero value (the channel `quit` is nil). -/
def HTU21D.make {σ : Type} (address : Byte) (bus : Int) (dev : σ) : HTU21D σ :=
  { RefreshInterval := 10, Temperature := 0, Humidity := 0, address := address, bus := bus,
    i2c := { dev := dev, trace := [] }, refresh := false, quit := none }

/-- The constructor `NewHTU21D`; `conn` is what `i2c.New(address, bus)` answered. -/
def NewHTU21D {σ : Type} (address : Byte) (bus : Int) (conn : Except BusError σ) :
    Except BusError (HTU21D σ) :=
  match conn with
  | .error err => .error err
  | .ok dev => .ok (HTU21D.make address bus dev)

/-- The sensor of `NewHTU21D(HTU21D_ADDR, 1)` on the opened device `dev`. -/
def HTU21D.init {σ : Type} (dev : σ) : HTU21D σ := HTU21D.make HTU21D_ADDR 1 dev

/-- One iteration of the loop of `StartRefresh` (the `default` case of the
`select`): both values are measured and assigned, then the loop sleeps
`RefreshInterval` seconds. -/
def HTU21D.refreshStep {σ : Type} (T : Transport σ) (M : Float32Model)
    (this : HTU21D σ) : HTU21D σ :=
  let t := this.ReadTemperature T M
  let this1 := { t.1 with Temperature := t.2.1 }
  let h := this1.ReadHumidity T M
  let this2 := { h.1 with Humidity := h.2.1 }
  { this2 with i2c := this2.i2c.Sleep (this2.RefreshInterval * 1000) }

/-! ## TSL2561 -/

/-- The constant `TSL2561_ADDR`. -/
def TSL2561_ADDR : Byte := 0x39

/-- The constant `TSL2561_ADDR_1`. -/
def TSL2561_ADDR_1 : Byte := 0x49

/-- The constant `TSL2561_ADDR_0`. -/
def TSL2561_ADDR_0 : Byte := 0x29

/-- The struct `TSL2561`; `gain` is a Go `int`, only ever compared and assigned;
`quit` is the channel `quit chan bool`, `none` for the nil channel. -/
structure TSL2561 (σ : Type) where
  RefreshInterval : Nat
  Lux : ℚ
  address : Byte
  bus : Int
  i2c : I2C σ
  gain : Int
  refresh : Bool
  quit : Option Nat

/-- The struct `NewTSL2561` builds, on the device `i2c.New` opened:
`&TSL2561{address: address, bus: bus, RefreshInterval: 10}`, every other field
at its zero value (the gain is 0, unset; the channel `quit` is nil). -/
def TSL2561.make {σ : Type} (address : Byte) (bus : Int) (dev : σ) : TSL2561 σ :=
  { RefreshInterval := 10, Lux := 0, address := address, bus := bus,
    i2c := { dev := dev, trace := [] }, gain := 0, refresh := false, quit := none }

/-- The constructor `NewTSL2561`; `conn` is what `i2c.New(address, bus)` answered. -/
def NewTSL2561 {σ : Type} (address : Byte) (bus : Int) (conn : Except BusError σ) :
    Except BusError (TSL2561 σ) :=
  match conn with
  | .error err => .error err
  | .ok dev => .ok (TSL2561.make address bus dev)

/-- The sensor of `NewTSL2561(TSL2561_ADDR, 1)` on the opened device `dev`. -/
def TSL2561.init {σ : Type} (dev : σ) : TSL2561 σ := TSL2561.make TSL2561_ADDR 1 dev

/-- The method `Gain`. -/
def TSL2561.Gain {σ : Type} (this : TSL2561 σ) : Int := this.gain

/-- The method `SetGain`. The result of `i2c.Write` is dropped. -/
def TSL2561.SetGain {σ : Type} (T : Transport σ) (this : TSL2561 σ) (gain : Int) :
    TSL2561 σ :=
  if this.gain ≠ gain then
    let w := if gain = 1 then this.i2c.Write T [0x81, 0x02]
             else this.i2c.Write T [0x81, 0x12]
    { this with i2c := w.1.Sleep 800, gain := gain }
  else this

/-- The little-endian word `uint16(res[1])*256 + uint16(res[0])`. -/
def wordLE (res : List Byte) : Nat :=
  (((res.getD 1 0).val * 256) % 65536 + (res.getD 0 0).val) % 65536

/-- The method `readFull`. -/
def TSL2561.readFull {σ : Type} (T : Transport σ) (this : TSL2561 σ) :
    TSL2561 σ × Nat × Option BusError :=
  let w := this.i2c.WriteByte T 0xAC
  match w.2 with
  | some err => ({ this with i2c := w.1 }, 0, some err)
  | none =>
    let r := w.1.Read T 2
    match r.2.2 with
    | some err => ({ this with i2c := r.1 }, 0, some err)
    | none => ({ this with i2c := r.1 }, wordLE r.2.1, none)

/-- The method `readIr`. -/
def TSL2561.readIr {σ : Type} (T : Transport σ) (this : TSL2561 σ) :
    TSL2561 σ × Nat × Option BusError :=
  let w := this.i2c.WriteByte T 0xAE
  match w.2 with
  | some err => ({ this with i2c := w.1 }, 0, some err)
  | none =>
    let r := w.1.Read T 2
    match r.2.2 with
    | some err => ({ this with i2c := r.1 }, 0, some err)
    | none => ({ this with i2c := r.1 }, wordLE r.2.1, none)

/-- Lines 163-166 of `ReadLux`: `ambient *= 16; ir *= 16` on `uint16` when the
gain is 1. The pair is what the ratio and the lux formula are computed from. -/
def scaleGain (gain : Int) (ambient ir : Nat) : Nat × Nat :=
  if gain = 1 then ((ambient * 16) % 65536, (ir * 16) % 65536) else (ambient, ir)

/-- The value `ratio = float32(ir) / float32(ambient)`. -/
def ratioOf (M : Float32Model) (ambient ir : Nat) : F32 :=
  M.quot (ir : ℚ) (ambient : ℚ)

/-- Lines 168-181 of `ReadLux`: the ratio and the chain of bands; `lux` starts
at the zero value. -/
def luxOf (M : Float32Model) (ambient ir : Nat) : ℚ :=
  let ratio := ratioOf M ambient ir
  if ratio.ge (M.const 0) && ratio.le (M.const 0.52) then
    M.sub (M.mul (M.const 0.0315) (ambient : ℚ))
      (M.mul (M.mul (M.const 0.0593) (ambient : ℚ)) (M.powF ratio 1.4))
  else if ratio.le (M.const 0.65) then
    M.sub (M.mul (M.const 0.0229) (ambient : ℚ)) (M.mul (M.const 0.0291) (ir : ℚ))
  else if ratio.le (M.const 0.80) then
    M.sub (M.mul (M.const 0.0157) (ambient : ℚ)) (M.mul (M.const 0.018) (ir : ℚ))
  else if ratio.le (M.const 1.3) then
    M.sub (M.mul (M.const 0.00338) (ambient : ℚ)) (M.mul (M.const 0.0026) (ir : ℚ))
  else if ratio.gt (M.const 1.3) then
    0
  else 0

/-- Lines 163-183 of `ReadLux`: what every path that did not fail ends with. -/
def TSL2561.finishLux {σ : Type} (M : Float32Model) (this : TSL2561 σ)
    (ambient ir : Nat) : TSL2561 σ × ℚ × Option BusError :=
  let s := scaleGain this.gain ambient ir
  (this, luxOf M s.1 s.2, none)

/-- The method `ReadLux`. -/
def TSL2561.ReadLux {σ : Type} (T : Transport σ) (M : Float32Model)
    (this : TSL2561 σ) : TSL2561 σ × ℚ × Option BusError :=
  if this.gain = 1 ∨ this.gain = 16 then
    let a := this.readFull T
    match a.2.2 with
    | some err => (a.1, 0, some err)
    | none =>
      let i := a.1.readIr T
      match i.2.2 with
      | some err => (i.1, 0, some err)
      | none => i.1.finishLux M a.2.1 i.2.1
  else if this.gain = 0 then
    let this1 := { this with gain := 16 }
    let a := this1.readFull T
    match a.2.2 with
    | some err => (a.1, 0, some err)
    | none =>
      let i := if a.2.1 < 0xFFFF then a.1.readIr T else (a.1, 0, none)
      match i.2.2 with
      | some err => (i.1, 0, some err)
      | none =>
        if a.2.1 ≥ 0xFFFF ∨ i.2.1 ≥ 0xFFFF then
          let this2 := { i.1 with gain := 1 }
          let a2 := this2.readFull T
          match a2.2.2 with
          | some err => (a2.1, 0, some err)
          | none =>
            let i2 := a2.1.readIr T
            match i2.2.2 with
            | some err => (i2.1, 0, some err)
            | none => i2.1.finishLux M a2.2.1 i2.2.1
        else i.1.finishLux M a.2.1 i.2.1
  else this.finishLux M 0 0

/-- One iteration of the loop of `StartRefresh`: the lux is measured and
assigned, then the loop sleeps `RefreshInterval` seconds. -/
def TSL2561.refreshStep {σ : Type} (T : Transport σ) (M : Float32Model)
    (this : TSL2561 σ) : TSL2561 σ :=
  let l := this.ReadLux T M
  let this1 := { l.1 with Lux := l.2.1 }
  { this1 with i2c := this1.i2c.Sleep (this1.RefreshInterval * 1000) }

/-! ## The refresh controller

`StartRefresh` launches a goroutine and `StopRefresh` sends on the channel
`quit`. A goroutine is followed through three points of its code; the caller
and the goroutines take their steps one at a time, in any order. A send on a
nil channel never completes and a receive from it is never ready; the channel
`quit` is unbuffered, so a receive in the `select` is ready exactly when the
caller is blocked in the send. -/

/-- Where a goroutine launched by `StartRefresh` stands: created by `go func()`
and not yet run; about to run the `select` at the top of the `for`; gone through
`case <-this.quit: return`. -/
inductive Task where
  | launched
  | looping
  | returned
deriving DecidableEq, Repr

/-- The goroutine that calls the methods of the sensor: between two calls, or
blocked in the send `this.quit <- true` of `StopRefresh`. -/
inductive Caller where
  | ready
  | sending
deriving DecidableEq, Repr

/-- A sensor with the goroutines launched on it, in the order of their launch,
and its caller. -/
structure Running (S : Type) where
  sensor : S
  tasks : List Task
  caller : Caller

/-- The method `StartRefresh` up to its return: the guard on `this.refresh`, the
two initial reads, the launch of the goroutine (which has not run yet). -/
def HTU21D.StartRefresh {σ : Type} (T : Transport σ) (M : Float32Model)
    (s : Running (HTU21D σ)) : Running (HTU21D σ) :=
  if s.sensor.refresh then s
  else
    let t := s.sensor.ReadTemperature T M
    let this1 := { t.1 with Temperature := t.2.1 }
    let h := this1.ReadHumidity T M
    let this2 := { h.1 with Humidity := h.2.1 }
    { s with sensor := this2, tasks := s.tasks ++ [Task.launched] }

/-- One step of the goroutine number `i` of `StartRefresh`: its first statement
`this.refresh = true`; then, at each turn of the `for`, the `select`: the receive
from `quit` when the channel is not nil and the caller is blocked in its send
(the send completes and the goroutine returns), the `default` case otherwise. A
goroutine that returned takes no step. -/
def HTU21D.taskStep {σ : Type} (T : Transport σ) (M : Float32Model)
    (s : Running (HTU21D σ)) (i : Nat) : Running (HTU21D σ) :=
  match s.tasks.get? i with
  | some Task.launched =>
    { s with sensor := { s.sensor with refresh := true }, tasks := s.tasks.set i Task.looping }
  | some Task.looping =>
    if s.sensor.quit.isSome ∧ s.caller = Caller.sending then
      { s with tasks := s.tasks.set i Task.returned, caller := Caller.ready }
    else { s with sensor := s.sensor.refreshStep T M }
  | _ => s

/-- The method `StopRefresh`: the caller reaches the send `this.quit <- true` and
stays in it until a goroutine receives (`taskStep`). -/
def HTU21D.StopRefresh {σ : Type} (s : Running (HTU21D σ)) : Running (HTU21D σ) :=
  { s with caller := Caller.sending }

/-- The goroutines take steps in the order of the schedule `sched`. -/
def HTU21D.run {σ : Type} (T : Transport σ) (M : Float32Model)
    (s : Running (HTU21D σ)) (sched : List Nat) : Running (HTU21D σ) :=
  sched.foldl (HTU21D.taskStep T M) s

/-- The method `StartRefresh` of the TSL2561 up to its return. -/
def TSL2561.StartRefresh {σ : Type} (T : Transport σ) (M : Float32Model)
    (s : Running (TSL2561 σ)) : Running (TSL2561 σ) :=
  if s.sensor.refresh then s
  else
    let l := s.sensor.ReadLux T M
    let this1 := { l.1 with Lux := l.2.1 }
    { s with sensor := this1, tasks := s.tasks ++ [Task.launched] }

/-- One step of the goroutine number `i` of `StartRefresh` of the TSL2561. -/
def TSL2561.taskStep {σ : Type} (T : Transport σ) (M : Float32Model)
    (s : Running (TSL2561 σ)) (i : Nat) : Running (TSL2561 σ) :=
  match s.tasks.get? i with
  | some Task.launched =>
    { s with sensor := { s.sensor with refresh := true }, tasks := s.tasks.set i Task.looping }
  | some Task.looping =>
    if s.sensor.quit.isSome ∧ s.caller = Caller.sending then
      { s with tasks := s.tasks.set i Task.returned, caller := Caller.ready }
    else { s with sensor := s.sensor.refreshStep T M }
  | _ => s

/-- The method `StopRefresh` of the TSL2561. -/
def TSL2561.StopRefresh {σ : Type} (s : Running (TSL2561 σ)) : Running (TSL2561 σ) :=
  { s with caller := Caller.sending }

/-- The goroutines of a TSL2561 take steps in the order of the schedule. -/
def TSL2561.run {σ : Type} (T : Transport σ) (M : Float32Model)
    (s : Running (TSL2561 σ)) (sched : List Nat) : Running (TSL2561 σ) :=
  sched.foldl (TSL2561.taskStep T M) s

/-- A sensor just built by `NewHTU21D`: no goroutine yet, the caller between
two calls. -/
def HTU21D.fresh {σ : Type} (address : Byte) (bus : Int) (dev : σ) : Running (HTU21D σ) :=
  { sensor := HTU21D.make address bus dev, tasks := [], caller := Caller.ready }

/-- A sensor just built by `NewTSL2561`: no goroutine yet, the caller between
two calls. -/
def TSL2561.fresh {σ : Type} (address : Byte) (bus : Int) (dev : σ) : Running (TSL2561 σ) :=
  { sensor := TSL2561.make address bus dev, tasks := [], caller := Caller.ready }

/-- The goroutines that have not returned. -/
def alive (tasks : List Task) : List Task :=
  tasks.filter (fun t => t ≠ Task.returned)

/-! ## Concrete transports -/

/-- A scripted device: every bus operation consumes the next reply of the
script (the bytes it delivers, if it is a read, and its error); when the script
is over every operation succeeds and delivers nothing. -/
def scripted : Transport (List (List Byte × Option BusError)) where
  writeByte := fun d _ => (d.tail, (d.headD ([], none)).2)
  write := fun d _ => (d.tail, (d.headD ([], none)).2)
  read := fun d _ => (d.tail, (d.headD ([], none)).1, (d.headD ([], none)).2)

/-- A successful reply delivering `data`. -/
def ok (data : List Byte) : List Byte × Option BusError := (data, none)

/-- A failing reply. -/
def fail (code : Nat) : List Byte × Option BusError := ([], some { code := code })

/-- A device that never fails: a read delivers the next queued answer, a write
changes nothing. -/
def replay : Transport (List (List Byte)) where
  writeByte := fun d _ => (d, none)
  write := fun d _ => (d, none)
  read := fun d _ => (d.tail, d.headD [], none)

/-! ## Vocabulary of the statements -/

/-- Every operation of the transport succeeds, in every device state. -/
def Transport.Reliable {σ : Type} (T : Transport σ) : Prop :=
  (∀ d b, (T.writeByte d b).2 = none) ∧ (∀ d p, (T.write d p).2 = none) ∧
    (∀ d n, (T.read d n).2.2 = none)

/-- The device state after one channel read from state `d`: the command byte
`cmd` is written, then 2 bytes are read. -/
def chanDev {σ : Type} (T : Transport σ) (d : σ) (cmd : Byte) : σ :=
  (T.read (T.writeByte d cmd).1 2).1

/-- The bytes the device delivers to that channel read. -/
def chanData {σ : Type} (T : Transport σ) (d : σ) (cmd : Byte) : List Byte :=
  (T.read (T.writeByte d cmd).1 2).2.1

/-- The word that channel read assembles. -/
def chanWord {σ : Type} (T : Transport σ) (d : σ) (cmd : Byte) : Nat :=
  wordLE (fill 2 (chanData T d cmd))

/-- The command bytes written with `WriteByte`, in order. -/
def commands (evs : List Event) : List Byte :=
  evs.filterMap (fun ev => match ev with
    | .writeByte b _ => some b
    | _ => none)

/-- The byte strings written with `Write`, in order. -/
def blockWrites (evs : List Event) : List (List Byte) :=
  evs.filterMap (fun ev => match ev with
    | .write p _ => some p
    | _ => none)

/-- The events are a run that stops at its first failure: with `err = none` no
event failed; with `err = some e` the last event is a bus operation that failed
with `e` and no event before it failed. -/
def FirstFailure (evs : List Event) (err : Option BusError) : Prop :=
  match err with
  | none => ∀ ev ∈ evs, ev.err = none
  | some e => ∃ pre ev, evs = pre ++ [ev] ∧ ev.isBusOp = true ∧ ev.err = some e ∧
      ∀ x ∈ pre, x.err = none

/-- The gain is one of unset (0), 1, 16. -/
def GainValid (g : Int) : Prop := g = 0 ∨ g = 1 ∨ g = 16

/-- What a synchronous read owes its caller: the events `evs` it appended to the
trace are a run that stops at its first failure; the error is non-nil exactly
when one of its bus operations failed; a non-nil error comes with the value 0. -/
def Surfaces (before after : List Event) (value : ℚ) (err : Option BusError) : Prop :=
  ∃ evs, after = before ++ evs ∧ FirstFailure evs err ∧
    (err ≠ none ↔ ∃ ev ∈ evs, ev.isBusOp = true ∧ ev.err ≠ none) ∧
    (err ≠ none → value = 0)

/-- One channel read of the TSL2561: the sensor changes in its `i2c` field only,
by a run of events that stops at its first failure and starts with the write of
the command byte `cmd`; a failure gives the value 0. -/
def ChannelRun {σ : Type} (this : TSL2561 σ) (out : TSL2561 σ × Nat × Option BusError)
    (cmd : Byte) : Prop :=
  ∃ (h : I2C σ) (evs : List Event), out.1 = { this with i2c := h } ∧
    h.trace = this.i2c.trace ++ evs ∧ FirstFailure evs out.2.2 ∧
    (out.2.2 ≠ none → out.2.1 = 0) ∧ (∃ err, commands evs = [cmd] ∧
      evs.head? = some (Event.writeByte cmd err)) ∧ blockWrites evs = []

/-- One call of `ReadLux`: the sensor changes in its `i2c` and `gain` fields
only; the events stop at the first failure, a failure gives the value 0; the gain
is kept, or was unset and is now 16 or 1; nothing is written with `Write` and
the only command bytes are `0xAC` and `0xAE`. -/
def LuxRun {σ : Type} (this : TSL2561 σ) (out : TSL2561 σ × ℚ × Option BusError) : Prop :=
  ∃ (h : I2C σ) (g : Int) (evs : List Event), out.1 = { this with i2c := h, gain := g } ∧
    h.trace = this.i2c.trace ++ evs ∧ FirstFailure evs out.2.2 ∧
    (out.2.2 ≠ none → out.2.1 = 0) ∧
    (g = this.gain ∨ (this.gain = 0 ∧ (g = 16 ∨ g = 1))) ∧
    blockWrites evs = [] ∧ (∀ c ∈ commands evs, c = 0xAC ∨ c = 0xAE)

/-- Two channel reads in a row, then the conversion: the body of the fixed gain
case of `ReadLux` (lines 126-134) and of its fall-back (lines 151-159), followed
by lines 163-183. -/
def twoReads {σ : Type} (T : Transport σ) (M : Float32Model) (s : TSL2561 σ) :
    TSL2561 σ × ℚ × Option BusError :=
  match (s.readFull T).2.2 with
  | some err => ((s.readFull T).1, 0, some err)
  | none =>
    match ((s.readFull T).1.readIr T).2.2 with
    | some err => (((s.readFull T).1.readIr T).1, 0, some err)
    | none => ((s.readFull T).1.readIr T).1.finishLux M (s.readFull T).2.1
        ((s.readFull T).1.readIr T).2.1

/-- The branch of the chain of `ReadLux` (lines 171-181) a ratio selects: 1 to 5
in the order of the source, 0 when none of the five conditions holds. -/
def branchOf (M : Float32Model) (ratio : F32) : Nat :=
  if ratio.ge (M.const 0) && ratio.le (M.const 0.52) then 1
  else if ratio.le (M.const 0.65) then 2
  else if ratio.le (M.const 0.80) then 3
  else if ratio.le (M.const 1.3) then 4
  else if ratio.gt (M.const 1.3) then 5
  else 0

/-- The float32 value is finite (neither an infinity nor NaN). -/
def F32.isFinite : F32 → Bool
  | .fin _ => true
  | _ => false

/-- The first stage of the unset gain case of `ReadLux` (lines 136-147): the
gain is set to 16, the full channel is read, and the ir channel too when the full
channel is below `0xFFFF`. The result is the sensor, the two words (`ir` is 0 when
it was not read) and the error that made `ReadLux` return, if any. -/
def TSL2561.firstStage {σ : Type} (T : Transport σ) (this : TSL2561 σ) :
    TSL2561 σ × Nat × Nat × Option BusError :=
  let this1 := { this with gain := 16 }
  let a := this1.readFull T
  match a.2.2 with
  | some err => (a.1, 0, 0, some err)
  | none =>
    let i := if a.2.1 < 0xFFFF then a.1.readIr T else (a.1, 0, none)
    (i.1, a.2.1, i.2.1, i.2.2)

/-! ## Lemmas: rounding and words -/

theorem rnd_bounds (M : Float32Model) (x : ℚ) :
    x - |x| / 2 ^ 24 ≤ M.rnd x ∧ M.rnd x ≤ x + |x| / 2 ^ 24 := by
  have h := abs_le.mp (M.rnd_rel x)
  constructor <;> linarith [h.1, h.2]

theorem rnd_zero (M : Float32Model) : M.rnd 0 = 0 := by
  have h := rnd_bounds M 0
  simp only [abs_zero, zero_div, sub_zero, add_zero] at h
  exact le_antisymm h.2 h.1

/-- The error of `c1 + c2 * x` evaluated in float32 from an already rounded
`x` in `[0, 1]`: two rounded constants, one product, one sum. -/
theorem affine_error (M : Float32Model) (c1 c2 x : ℚ) (hc : 0 ≤ c2) (hx0 : 0 ≤ x)
    (hx1 : x ≤ 1) :
    |M.add (M.const c1) (M.mul (M.const c2) (M.rnd x)) - (c1 + c2 * x)|
      ≤ (3 * |c1| + 6 * c2) / 2 ^ 24 := by
  unfold Float32Model.add Float32Model.mul Float32Model.const
  have hd := rnd_bounds M x
  rw [abs_of_nonneg hx0] at hd
  have hk := rnd_bounds M c2
  rw [abs_of_nonneg hc] at hk
  have hd0 : 0 ≤ M.rnd x := by linarith [hd.1]
  have hk0 : 0 ≤ M.rnd c2 := by linarith [hk.1]
  have hprod0 : 0 ≤ M.rnd c2 * M.rnd x := mul_nonneg hk0 hd0
  have hup : M.rnd c2 * M.rnd x ≤ (c2 + c2 / 2 ^ 24) * (x + x / 2 ^ 24) :=
    mul_le_mul hk.2 hd.2 hd0 (by linarith)
  have hlo : (c2 - c2 / 2 ^ 24) * (x - x / 2 ^ 24) ≤ M.rnd c2 * M.rnd x :=
    mul_le_mul hk.1 hd.1 (by linarith) hk0
  have ht0 : 0 ≤ c2 * x := mul_nonneg hc hx0
  have ht1 : c2 * x ≤ c2 := by nlinarith
  have hp := rnd_bounds M (M.rnd c2 * M.rnd x)
  rw [abs_of_nonneg hprod0] at hp
  have ha := rnd_bounds M c1
  have ha0 : 0 ≤ |c1| := abs_nonneg c1
  have hc1 := abs_le.mp (le_refl |c1|)
  set q := M.rnd c2 * M.rnd x with hqdef
  have hq1 : q ≤ c2 * x + 3 * c2 / 2 ^ 24 := by
    have e : (c2 + c2 / 2 ^ 24) * (x + x / 2 ^ 24)
        = c2 * x + (c2 * x) * (2 / 2 ^ 24 + 1 / 2 ^ 48) := by ring
    rw [e] at hup
    have : (c2 * x) * (2 / 2 ^ 24 + 1 / 2 ^ 48) ≤ c2 * (2 / 2 ^ 24 + 1 / 2 ^ 48) :=
      mul_le_mul_of_nonneg_right ht1 (by norm_num)
    linarith
  have hq2 : c2 * x - 2 * c2 / 2 ^ 24 ≤ q := by
    have e : (c2 - c2 / 2 ^ 24) * (x - x / 2 ^ 24)
        = c2 * x - (c2 * x) * (2 / 2 ^ 24 - 1 / 2 ^ 48) := by ring
    rw [e] at hlo
    have : (c2 * x) * (2 / 2 ^ 24 - 1 / 2 ^ 48) ≤ c2 * (2 / 2 ^ 24 - 1 / 2 ^ 48) :=
      mul_le_mul_of_nonneg_right ht1 (by norm_num)
    linarith
  set p := M.rnd q with hpdef
  set a := M.rnd c1 with hadef
  have hs := rnd_bounds M (a + p)
  have hp0 : 0 ≤ p := by linarith [hp.1]
  have hp1 : p ≤ c2 * x + 9 / 2 * c2 / 2 ^ 24 := by linarith [hp.2]
  have hp2 : c2 * x - 7 / 2 * c2 / 2 ^ 24 ≤ p := by linarith [hp.1]
  have hsum : |a + p| ≤ 2 * |c1| + 3 / 2 * c2 := by
    rw [abs_le]
    constructor
    · linarith [ha.1]
    · linarith [ha.2]
  rw [abs_le]
  constructor
  · linarith [hs.1, ha.1]
  · linarith [hs.2, ha.2]

/-- Masking with `0xFFFC` clears the two low bits of a 16 bit word. -/
theorem land_fffc (n : Nat) (h : n < 65536) : n &&& 0xFFFC = n - n % 4 := by
  apply Nat.eq_of_testBit_eq
  intro i
  have e1 : (0xFFFC : Nat) = (2 ^ 14 - 1) <<< 2 := by decide
  have e2 : n - n % 4 = (n >>> 2) <<< 2 := by
    rw [Nat.shiftLeft_eq, Nat.shiftRight_eq_div_pow]; omega
  rw [e2, Nat.testBit_and, e1, Nat.testBit_shiftLeft, Nat.testBit_shiftLeft,
    Nat.testBit_two_pow_sub_one, Nat.testBit_shiftRight]
  by_cases h2 : 2 ≤ i
  · have : 2 + (i - 2) = i := by omega
    simp only [h2, this, ge_iff_le, decide_True, Bool.true_and]
    by_cases h16 : i - 2 < 14
    · simp [h16]
    · have : n < 2 ^ i := lt_of_lt_of_le h (by
        have : 16 ≤ i := by omega
        calc 65536 = 2 ^ 16 := by norm_num
          _ ≤ 2 ^ i := Nat.pow_le_pow_right (by norm_num) this)
      simp [h16, Nat.testBit_lt_two_pow this]
  · simp [h2]

theorem rawWord_eq (b0 b1 : Byte) (rest : List Byte) :
    rawWord (fill 3 (b0 :: b1 :: rest)) = (b0.val * 256 + b1.val) &&& 0xFFFC := by
  have h0 := b0.isLt
  have h1 := b1.isLt
  have e : (b0.val * 256) % 65536 = b0.val * 256 := Nat.mod_eq_of_lt (by omega)
  have e2 : (b0.val * 256 + b1.val) % 65536 = b0.val * 256 + b1.val :=
    Nat.mod_eq_of_lt (by omega)
  simp [rawWord, fill, e, e2]

/-- The masked word of two bytes as a fraction of `65536` lies in `[0, 1]`. -/
theorem masked_fraction (b0 b1 : Byte) :
    (0 : ℚ) ≤ (((b0.val * 256 + b1.val) &&& 0xFFFC : Nat) : ℚ) / 65536 ∧
    (((b0.val * 256 + b1.val) &&& 0xFFFC : Nat) : ℚ) / 65536 ≤ 1 := by
  have h0 := b0.isLt
  have h1 := b1.isLt
  have hlt : b0.val * 256 + b1.val < 65536 := by omega
  have hle : (b0.val * 256 + b1.val) &&& 0xFFFC ≤ 65535 := by
    rw [land_fffc _ hlt]; omega
  refine ⟨by positivity, ?_⟩
  rw [div_le_one (by norm_num)]
  have : (((b0.val * 256 + b1.val) &&& 0xFFFC : Nat) : ℚ) ≤ ((65535 : Nat) : ℚ) :=
    Nat.cast_le.mpr hle
  push_cast at this ⊢
  linarith

/-! ## HTU21D: the conversions -/

theorem ReadTemperature_ok {σ : Type} (T : Transport σ) (M : Float32Model)
    (this : HTU21D σ) (d1 d2 : σ) (data : List Byte)
    (hw : T.writeByte this.i2c.dev 0xF3 = (d1, none))
    (hr : T.read d1 3 = (d2, data, none)) :
    this.ReadTemperature T M =
      ({ this with i2c := { dev := d2, trace := this.i2c.trace ++
          [Event.writeByte 0xF3 none, Event.sleep 100, Event.read 3 data none] } },
        tempOfRaw M (rawWord (fill 3 data)), none) := by
  simp [HTU21D.ReadTemperature, I2C.WriteByte, I2C.Read, I2C.Sleep, hw, hr]

theorem ReadHumidity_ok {σ : Type} (T : Transport σ) (M : Float32Model)
    (this : HTU21D σ) (d1 d2 : σ) (data : List Byte)
    (hw : T.writeByte this.i2c.dev 0xF5 = (d1, none))
    (hr : T.read d1 3 = (d2, data, none)) :
    this.ReadHumidity T M =
      ({ this with i2c := { dev := d2, trace := this.i2c.trace ++
          [Event.writeByte 0xF5 none, Event.sleep 100, Event.read 3 data none] } },
        humidityOfRaw M (rawWord (fill 3 data)), none) := by
  simp [HTU21D.ReadHumidity, I2C.WriteByte, I2C.Read, I2C.Sleep, hw, hr]

/-- C1: when the command write and the read of `ReadTemperature` succeed and the
read delivers the bytes `b0`, `b1` (and anything after them), no error is
returned and the value is `-46.85 + 175.72 * (r / 65536)` evaluated in float32,
with `r = (b0*256 + b1) & 0xFFFC`: it is within `1/10000` of the exact value for
every rounding, and is the exact value when nothing is rounded. The 16 bit word
does not overflow and `r` does not depend on the two low bits of `b1`. -/
theorem ReadTemperature_formula {σ : Type} (T : Transport σ) (M : Float32Model)
    (this : HTU21D σ) (d1 d2 : σ) (b0 b1 : Byte) (rest : List Byte)
    (hw : T.writeByte this.i2c.dev 0xF3 = (d1, none))
    (hr : T.read d1 3 = (d2, b0 :: b1 :: rest, none)) :
    (this.ReadTemperature T M).2.2 = none ∧
    (this.ReadTemperature T M).2.1 =
      M.add (M.const (-46.85)) (M.mul (M.const 175.72)
        (M.div (((b0.val * 256 + b1.val) &&& 0xFFFC : Nat) : ℚ) 65536)) ∧
    |(this.ReadTemperature T M).2.1
        - (-46.85 + 175.72 * ((((b0.val * 256 + b1.val) &&& 0xFFFC : Nat) : ℚ) / 65536))|
      ≤ 1 / 10000 ∧
    (∀ pw : ℚ → ℚ → ℚ, (this.ReadTemperature T (Float32Model.exact pw)).2.1
        = -46.85 + 175.72 * ((((b0.val * 256 + b1.val) &&& 0xFFFC : Nat) : ℚ) / 65536)) ∧
    b0.val * 256 + b1.val < 65536 ∧
    (b0.val * 256 + b1.val) &&& 0xFFFC = b0.val * 256 + (b1.val - b1.val % 4) := by
  have h0 := b0.isLt
  have h1 := b1.isLt
  have hlt : b0.val * 256 + b1.val < 65536 := by omega
  have hmask := land_fffc _ hlt
  have hval : ∀ M1 : Float32Model, (this.ReadTemperature T M1).2.1 =
      M1.add (M1.const (-46.85)) (M1.mul (M1.const 175.72)
        (M1.div (((b0.val * 256 + b1.val) &&& 0xFFFC : Nat) : ℚ) 65536)) := by
    intro M1
    rw [ReadTemperature_ok T M1 this d1 d2 _ hw hr, rawWord_eq]
    simp only [tempOfRaw]
    norm_num
  refine ⟨?_, hval M, ?_, ?_, hlt, ?_⟩
  · rw [ReadTemperature_ok T M this d1 d2 _ hw hr]
  · rw [hval M]
    have hx := masked_fraction b0 b1
    have h := affine_error M (-46.85) 175.72 _ (by norm_num) hx.1 hx.2
    have e : |(-46.85 : ℚ)| = 46.85 := by rw [abs_of_neg (by norm_num)]; norm_num
    rw [e] at h
    unfold Float32Model.div
    refine le_trans h ?_
    norm_num
  · intro pw
    rw [hval]
    simp [Float32Model.exact, Float32Model.add, Float32Model.mul, Float32Model.const,
      Float32Model.div]
  · rw [hmask]; omega

/-- Witness of C1: the device delivers `0x80 0x03 0xAA`; the masked word is
`0x8000`; nothing being rounded the temperature is `41.01`, and with the binary32
rounding it is within `1/10000` of `41.01`. -/
theorem ReadTemperature_formula_witness :
    scripted.writeByte (HTU21D.init [ok [], ok [0x80, 0x03, 0xAA]]).i2c.dev 0xF3
      = ([ok [0x80, 0x03, 0xAA]], none) ∧
    scripted.read [ok [0x80, 0x03, 0xAA]] 3 = ([], [0x80, 0x03, 0xAA], none) ∧
    ((HTU21D.init [ok [], ok [0x80, 0x03, 0xAA]]).ReadTemperature scripted
      Float32Model.plain).2.1 = 41.01 ∧
    |((HTU21D.init [ok [], ok [0x80, 0x03, 0xAA]]).ReadTemperature scripted
      (Float32Model.binary32 (fun x _ => x))).2.1 - 41.01| ≤ 1 / 10000 := by
  have h := ReadTemperature_formula scripted (Float32Model.binary32 (fun x _ => x))
    (HTU21D.init [ok [], ok [0x80, 0x03, 0xAA]]) [ok [0x80, 0x03, 0xAA]] []
    0x80 0x03 [0xAA] rfl rfl
  have e : ((0x80 : Byte).val * 256 + (0x03 : Byte).val) &&& 0xFFFC = 32768 := by decide
  have hb := h.2.2.1
  have hp := h.2.2.2.1 (fun x _ => x)
  rw [e] at hb hp
  refine ⟨rfl, rfl, ?_, ?_⟩
  · rw [Float32Model.plain, hp]
    norm_num
  · have e2 : (-46.85 + 175.72 * (((32768 : Nat) : ℚ) / 65536) : ℚ) = 41.01 := by norm_num
    rw [e2] at hb
    exact hb

/-- C2: when the command write and the read of `ReadHumidity` succeed and the
read delivers the bytes `b0`, `b1`, no error is returned and the value is
`-6 + 125 * (r / 65536)` evaluated in float32, with the same word
`r = (b0*256 + b1) & 0xFFFC` as the temperature: within `1/10000` of the exact
value for every rounding, and the exact value when nothing is rounded. -/
theorem ReadHumidity_formula {σ : Type} (T : Transport σ) (M : Float32Model)
    (this : HTU21D σ) (d1 d2 : σ) (b0 b1 : Byte) (rest : List Byte)
    (hw : T.writeByte this.i2c.dev 0xF5 = (d1, none))
    (hr : T.read d1 3 = (d2, b0 :: b1 :: rest, none)) :
    (this.ReadHumidity T M).2.2 = none ∧
    (this.ReadHumidity T M).2.1 =
      M.add (M.const (-6)) (M.mul (M.const 125)
        (M.div (((b0.val * 256 + b1.val) &&& 0xFFFC : Nat) : ℚ) 65536)) ∧
    |(this.ReadHumidity T M).2.1
        - (-6 + 125 * ((((b0.val * 256 + b1.val) &&& 0xFFFC : Nat) : ℚ) / 65536))|
      ≤ 1 / 10000 ∧
    (∀ pw : ℚ → ℚ → ℚ, (this.ReadHumidity T (Float32Model.exact pw)).2.1
        = -6 + 125 * ((((b0.val * 256 + b1.val) &&& 0xFFFC : Nat) : ℚ) / 65536)) ∧
    rawWord (fill 3 (b0 :: b1 :: rest)) = (b0.val * 256 + b1.val) &&& 0xFFFC := by
  have hval : ∀ M1 : Float32Model, (this.ReadHumidity T M1).2.1 =
      M1.add (M1.const (-6)) (M1.mul (M1.const 125)
        (M1.div (((b0.val * 256 + b1.val) &&& 0xFFFC : Nat) : ℚ) 65536)) := by
    intro M1
    rw [ReadHumidity_ok T M1 this d1 d2 _ hw hr, rawWord_eq]
    simp only [humidityOfRaw]
    norm_num
  refine ⟨?_, hval M, ?_, ?_, rawWord_eq b0 b1 rest⟩
  · rw [ReadHumidity_ok T M this d1 d2 _ hw hr]
  · rw [hval M]
    have hx := masked_fraction b0 b1
    have h := affine_error M (-6) 125 _ (by norm_num) hx.1 hx.2
    have e : |(-6 : ℚ)| = 6 := by rw [abs_of_neg (by norm_num)]; norm_num
    rw [e] at h
    unfold Float32Model.div
    refine le_trans h ?_
    norm_num
  · intro pw
    rw [hval]
    simp [Float32Model.exact, Float32Model.add, Float32Model.mul, Float32Model.const,
      Float32Model.div]

/-- Witness of C2: the device delivers `0x80 0x02 0x00`; the masked word is
`0x8000`; nothing being rounded the humidity is `56.5`, and with the binary32
rounding it is within `1/10000` of `56.5`. -/
theorem ReadHumidity_formula_witness :
    scripted.writeByte (HTU21D.init [ok [], ok [0x80, 0x02, 0x00]]).i2c.dev 0xF5
      = ([ok [0x80, 0x02, 0x00]], none) ∧
    scripted.read [ok [0x80, 0x02, 0x00]] 3 = ([], [0x80, 0x02, 0x00], none) ∧
    ((HTU21D.init [ok [], ok [0x80, 0x02, 0x00]]).ReadHumidity scripted
      Float32Model.plain).2.1 = 56.5 ∧
    |((HTU21D.init [ok [], ok [0x80, 0x02, 0x00]]).ReadHumidity scripted
      (Float32Model.binary32 (fun x _ => x))).2.1 - 56.5| ≤ 1 / 10000 := by
  have h := ReadHumidity_formula scripted (Float32Model.binary32 (fun x _ => x))
    (HTU21D.init [ok [], ok [0x80, 0x02, 0x00]]) [ok [0x80, 0x02, 0x00]] []
    0x80 0x02 [0x00] rfl rfl
  have e : ((0x80 : Byte).val * 256 + (0x02 : Byte).val) &&& 0xFFFC = 32768 := by decide
  have hb := h.2.2.1
  have hp := h.2.2.2.1 (fun x _ => x)
  rw [e] at hb hp
  refine ⟨rfl, rfl, ?_, ?_⟩
  · rw [Float32Model.plain, hp]
    norm_num
  · have e2 : (-6 + 125 * (((32768 : Nat) : ℚ) / 65536) : ℚ) = 56.5 := by norm_num
    rw [e2] at hb
    exact hb

/-! ## TSL2561: the bands of the lux formula -/

/-- Comparing the rounded ratio of two 16 bit words with a rounded threshold
`n / d` is comparing the exact ratio with the exact threshold. -/
theorem rnd_le_iff (M : Float32Model) (ambient ir n d : Nat) (ha : 0 < ambient)
    (hA : ambient < 65536) (hd : 0 < d) (hn : n ≤ 16) :
    M.rnd ((ir : ℚ) / (ambient : ℚ)) ≤ M.rnd ((n : ℚ) / (d : ℚ))
      ↔ (ir : ℚ) / (ambient : ℚ) ≤ (n : ℚ) / (d : ℚ) := by
  have hA0 : (0 : ℚ) < (ambient : ℚ) := by exact_mod_cast ha
  have hD0 : (0 : ℚ) < (d : ℚ) := by exact_mod_cast hd
  have hq0 : (0 : ℚ) ≤ (ir : ℚ) / (ambient : ℚ) := by positivity
  have ht0 : (0 : ℚ) ≤ (n : ℚ) / (d : ℚ) := by positivity
  have hq := rnd_bounds M ((ir : ℚ) / (ambient : ℚ))
  have ht := rnd_bounds M ((n : ℚ) / (d : ℚ))
  rw [abs_of_nonneg hq0] at hq
  rw [abs_of_nonneg ht0] at ht
  have hNA : (n : ℚ) * (ambient : ℚ) ≤ 16 * 65536 := by
    have h1 : (n : ℚ) ≤ 16 := by exact_mod_cast hn
    have h2 : (ambient : ℚ) ≤ 65536 := by exact_mod_cast hA.le
    exact mul_le_mul h1 h2 hA0.le (by norm_num)
  rw [div_le_div_iff₀ hA0 hD0]
  constructor
  · intro h
    by_contra hc
    have hlt : n * ambient < ir * d := by
      have : (n : ℚ) * (ambient : ℚ) < (ir : ℚ) * (d : ℚ) := lt_of_not_le hc
      exact_mod_cast this
    have hstep : (n : ℚ) * (ambient : ℚ) + 1 ≤ (ir : ℚ) * (d : ℚ) := by
      exact_mod_cast hlt
    -- t (1 + u) < q (1 - u)
    have key : (n : ℚ) / (d : ℚ) + (n : ℚ) / (d : ℚ) / 2 ^ 24
        < (ir : ℚ) / (ambient : ℚ) - (ir : ℚ) / (ambient : ℚ) / 2 ^ 24 := by
      have e1 : (n : ℚ) / (d : ℚ) + (n : ℚ) / (d : ℚ) / 2 ^ 24
          = ((n : ℚ) * (1 + 1 / 2 ^ 24)) / (d : ℚ) := by ring
      have e2 : (ir : ℚ) / (ambient : ℚ) - (ir : ℚ) / (ambient : ℚ) / 2 ^ 24
          = ((ir : ℚ) * (1 - 1 / 2 ^ 24)) / (ambient : ℚ) := by ring
      rw [e1, e2, div_lt_div_iff₀ hD0 hA0]
      nlinarith
    linarith [ht.2, hq.1]
  · intro h
    rcases eq_or_lt_of_le h with heq | hlt
    · have : (ir : ℚ) / (ambient : ℚ) = (n : ℚ) / (d : ℚ) := by
        rw [div_eq_div_iff hA0.ne.symm hD0.ne.symm]; exact heq
      rw [this]
    · have hlt2 : ir * d < n * ambient := by exact_mod_cast hlt
      have hstep : (ir : ℚ) * (d : ℚ) + 1 ≤ (n : ℚ) * (ambient : ℚ) := by
        exact_mod_cast hlt2
      have key : (ir : ℚ) / (ambient : ℚ) + (ir : ℚ) / (ambient : ℚ) / 2 ^ 24
          ≤ (n : ℚ) / (d : ℚ) - (n : ℚ) / (d : ℚ) / 2 ^ 24 := by
        have e1 : (n : ℚ) / (d : ℚ) - (n : ℚ) / (d : ℚ) / 2 ^ 24
            = ((n : ℚ) * (1 - 1 / 2 ^ 24)) / (d : ℚ) := by ring
        have e2 : (ir : ℚ) / (ambient : ℚ) + (ir : ℚ) / (ambient : ℚ) / 2 ^ 24
            = ((ir : ℚ) * (1 + 1 / 2 ^ 24)) / (ambient : ℚ) := by ring
        rw [e1, e2, div_le_div_iff₀ hA0 hD0]
        nlinarith
      linarith [ht.1, hq.2]

theorem rnd_nonneg (M : Float32Model) (x : ℚ) (hx : 0 ≤ x) : 0 ≤ M.rnd x := by
  have h := rnd_bounds M x
  rw [abs_of_nonneg hx] at h
  have : x / 2 ^ 24 ≤ x := by
    rw [div_le_iff₀ (by norm_num)]
    nlinarith
  linarith [h.1]

/-- The conditions of the chain of `luxOf`, for a non-zero `ambient`, are the
comparisons of the exact ratio with the exact thresholds. -/
theorem luxOf_chain (M : Float32Model) (ambient ir : Nat) (ha : 0 < ambient)
    (hA : ambient < 65536) :
    luxOf M ambient ir =
      if (ir : ℚ) / (ambient : ℚ) ≤ 0.52 then
        M.sub (M.mul (M.const 0.0315) (ambient : ℚ))
          (M.mul (M.mul (M.const 0.0593) (ambient : ℚ))
            (M.rnd (M.pow (M.rnd ((ir : ℚ) / (ambient : ℚ))) 1.4)))
      else if (ir : ℚ) / (ambient : ℚ) ≤ 0.65 then
        M.sub (M.mul (M.const 0.0229) (ambient : ℚ)) (M.mul (M.const 0.0291) (ir : ℚ))
      else if (ir : ℚ) / (ambient : ℚ) ≤ 0.80 then
        M.sub (M.mul (M.const 0.0157) (ambient : ℚ)) (M.mul (M.const 0.018) (ir : ℚ))
      else if (ir : ℚ) / (ambient : ℚ) ≤ 1.3 then
        M.sub (M.mul (M.const 0.00338) (ambient : ℚ)) (M.mul (M.const 0.0026) (ir : ℚ))
      else 0 := by
  have hA0 : ((ambient : ℚ)) ≠ 0 := by exact_mod_cast ha.ne.symm
  have hq0 : (0 : ℚ) ≤ (ir : ℚ) / (ambient : ℚ) := by positivity
  have h1 := rnd_le_iff M ambient ir 13 25 ha hA (by norm_num) (by norm_num)
  have h2 := rnd_le_iff M ambient ir 13 20 ha hA (by norm_num) (by norm_num)
  have h3 := rnd_le_iff M ambient ir 4 5 ha hA (by norm_num) (by norm_num)
  have h4 := rnd_le_iff M ambient ir 13 10 ha hA (by norm_num) (by norm_num)
  have e1 : (0.52 : ℚ) = ((13 : Nat) : ℚ) / ((25 : Nat) : ℚ) := by norm_num
  have e2 : (0.65 : ℚ) = ((13 : Nat) : ℚ) / ((20 : Nat) : ℚ) := by norm_num
  have e3 : (0.80 : ℚ) = ((4 : Nat) : ℚ) / ((5 : Nat) : ℚ) := by norm_num
  have e4 : (1.3 : ℚ) = ((13 : Nat) : ℚ) / ((10 : Nat) : ℚ) := by norm_num
  have hz : (0 : ℚ) ≤ M.rnd ((ir : ℚ) / (ambient : ℚ)) := rnd_nonneg M _ hq0
  simp only [luxOf, ratioOf, Float32Model.quot, hA0, if_false, F32.ge, F32.le, F32.gt,
    Float32Model.const, rnd_zero, Float32Model.div, Float32Model.powF, hz, decide_True,
    Bool.true_and, decide_eq_true_eq, e1, e2, e3, e4, h1, h2, h3, h4, ite_self]

theorem ReadLux_fixed_ok {σ : Type} (T : Transport σ) (M : Float32Model)
    (this : TSL2561 σ) (d1 d2 d3 d4 : σ) (da di : List Byte)
    (hg : this.gain = 1 ∨ this.gain = 16)
    (h1 : T.writeByte this.i2c.dev 0xAC = (d1, none))
    (h2 : T.read d1 2 = (d2, da, none))
    (h3 : T.writeByte d2 0xAE = (d3, none))
    (h4 : T.read d3 2 = (d4, di, none)) :
    this.ReadLux T M =
      ({ this with i2c := { dev := d4, trace := this.i2c.trace ++
          [Event.writeByte 0xAC none, Event.read 2 da none,
           Event.writeByte 0xAE none, Event.read 2 di none] } },
        luxOf M (scaleGain this.gain (wordLE (fill 2 da)) (wordLE (fill 2 di))).1
          (scaleGain this.gain (wordLE (fill 2 da)) (wordLE (fill 2 di))).2, none) := by
  simp [TSL2561.ReadLux, TSL2561.readFull, TSL2561.readIr, TSL2561.finishLux,
    I2C.WriteByte, I2C.Read, hg, h1, h2, h3, h4]

/-- C3: for a final pair with `0 < ambient` (a 16 bit word) the lux is given by
exactly one band of the exact ratio `ir / ambient`, upper bounds inclusive:
`[0, 0.52]`, `(0.52, 0.65]`, `(0.65, 0.80]`, `(0.80, 1.3]`, `> 1.3`, each with its
formula evaluated in float32 (the float32 comparisons of the rounded ratio with
the rounded thresholds decide exactly these bands). A sensor at gain 16 reading
`ambient = 1000`, `ir = 300` returns the first formula. -/
theorem luxOf_bands (M : Float32Model) (ambient ir : Nat) (ha : 0 < ambient)
    (hA : ambient < 65536) :
    (0 : ℚ) ≤ (ir : ℚ) / (ambient : ℚ) ∧
    ratioOf M ambient ir = F32.fin (M.rnd ((ir : ℚ) / (ambient : ℚ))) ∧
    ((ir : ℚ) / (ambient : ℚ) ≤ 0.52 →
      luxOf M ambient ir = M.sub (M.mul (M.const 0.0315) (ambient : ℚ))
        (M.mul (M.mul (M.const 0.0593) (ambient : ℚ))
          (M.rnd (M.pow (M.rnd ((ir : ℚ) / (ambient : ℚ))) 1.4)))) ∧
    (0.52 < (ir : ℚ) / (ambient : ℚ) → (ir : ℚ) / (ambient : ℚ) ≤ 0.65 →
      luxOf M ambient ir =
        M.sub (M.mul (M.const 0.0229) (ambient : ℚ)) (M.mul (M.const 0.0291) (ir : ℚ))) ∧
    (0.65 < (ir : ℚ) / (ambient : ℚ) → (ir : ℚ) / (ambient : ℚ) ≤ 0.80 →
      luxOf M ambient ir =
        M.sub (M.mul (M.const 0.0157) (ambient : ℚ)) (M.mul (M.const 0.018) (ir : ℚ))) ∧
    (0.80 < (ir : ℚ) / (ambient : ℚ) → (ir : ℚ) / (ambient : ℚ) ≤ 1.3 →
      luxOf M ambient ir =
        M.sub (M.mul (M.const 0.00338) (ambient : ℚ)) (M.mul (M.const 0.0026) (ir : ℚ))) ∧
    (1.3 < (ir : ℚ) / (ambient : ℚ) → luxOf M ambient ir = 0) ∧
    ({ TSL2561.init [ok [], ok [0xE8, 0x03], ok [], ok [0x2C, 0x01]] with
        gain := 16 }.ReadLux scripted M).2.1
      = M.sub (M.mul (M.const 0.0315) 1000)
          (M.mul (M.mul (M.const 0.0593) 1000) (M.rnd (M.pow (M.rnd (300 / 1000)) 1.4))) := by
  have hA0 : ((ambient : ℚ)) ≠ 0 := by exact_mod_cast ha.ne.symm
  have hc := luxOf_chain M ambient ir ha hA
  refine ⟨by positivity, ?_, ?_, ?_, ?_, ?_, ?_, ?_⟩
  · simp [ratioOf, Float32Model.quot, hA0, Float32Model.div]
  · intro h1
    rw [hc, if_pos h1]
  · intro h1 h2
    rw [hc, if_neg (not_le.mpr h1), if_pos h2]
  · intro h2 h3
    have h1 : (0.52 : ℚ) < (ir : ℚ) / (ambient : ℚ) := lt_trans (by norm_num) h2
    rw [hc, if_neg (not_le.mpr h1), if_neg (not_le.mpr h2), if_pos h3]
  · intro h3 h4
    have h2 : (0.65 : ℚ) < (ir : ℚ) / (ambient : ℚ) := lt_trans (by norm_num) h3
    have h1 : (0.52 : ℚ) < (ir : ℚ) / (ambient : ℚ) := lt_trans (by norm_num) h2
    rw [hc, if_neg (not_le.mpr h1), if_neg (not_le.mpr h2), if_neg (not_le.mpr h3),
      if_pos h4]
  · intro h4
    have h3 : (0.80 : ℚ) < (ir : ℚ) / (ambient : ℚ) := lt_trans (by norm_num) h4
    have h2 : (0.65 : ℚ) < (ir : ℚ) / (ambient : ℚ) := lt_trans (by norm_num) h3
    have h1 : (0.52 : ℚ) < (ir : ℚ) / (ambient : ℚ) := lt_trans (by norm_num) h2
    rw [hc, if_neg (not_le.mpr h1), if_neg (not_le.mpr h2), if_neg (not_le.mpr h3),
      if_neg (not_le.mpr h4)]
  · rw [ReadLux_fixed_ok scripted M
      { TSL2561.init [ok [], ok [0xE8, 0x03], ok [], ok [0x2C, 0x01]] with gain := 16 }
      [ok [0xE8, 0x03], ok [], ok [0x2C, 0x01]]
      [ok [], ok [0x2C, 0x01]] [ok [0x2C, 0x01]] [] [0xE8, 0x03] [0x2C, 0x01]
      (Or.inr rfl) rfl rfl rfl rfl]
    have e : scaleGain 16 (wordLE (fill 2 [0xE8, 0x03])) (wordLE (fill 2 [0x2C, 0x01]))
        = (1000, 300) := by decide
    simp only [e]
    rw [luxOf_chain M 1000 300 (by norm_num) (by norm_num), if_pos (by norm_num)]
    norm_num

/-- Witness of C3: `ambient = 25`, `ir = 13`, the ratio is exactly `0.52` and the
first formula is selected. -/
theorem luxOf_bands_witness :
    0 < 25 ∧ 25 < 65536 ∧
    luxOf Float32Model.plain 25 13 = 0.0315 * 25 - 0.0593 * 25 * (13 / 25) := by
  have h := luxOf_bands Float32Model.plain 25 13 (by decide) (by decide)
  refine ⟨by decide, by decide, ?_⟩
  rw [h.2.2.1 (by norm_num)]
  simp [Float32Model.plain, Float32Model.exact, Float32Model.sub, Float32Model.mul,
    Float32Model.const]

/-! ## TSL2561: scaling at gain 1 -/


theorem luxOf_zero_ambient (M : Float32Model) (ir : Nat) : luxOf M 0 ir = 0 := by
  by_cases h : (ir : ℚ) = 0
  · simp [luxOf, ratioOf, Float32Model.quot, F32.ge, F32.le, F32.gt, h]
  · have hpos : (0 : ℚ) < (ir : ℚ) := lt_of_le_of_ne (by positivity) (Ne.symm h)
    simp [luxOf, ratioOf, Float32Model.quot, F32.ge, F32.le, F32.gt, h, hpos]

/-- C4: the code at the failing input. At gain 1 the raw readings `ambient = 4096`,
`ir = 2048` are scaled on `uint16` to `0` and `32768`, not to `65536` and
`32768`: `ReadLux` then divides by zero and returns the lux 0. In general the
scaled pair is `16*ambient mod 65536`, `16*ir mod 65536`, which is `16*ambient`,
`16*ir` only for raw readings below 4096. -/
theorem scaleGain_overflow (M : Float32Model) :
    scaleGain 1 4096 2048 = (0, 32768) ∧
    (16 * 4096, 16 * 2048) = (65536, 32768) ∧
    ({ TSL2561.init [ok [], ok [0x00, 0x10], ok [], ok [0x00, 0x08]] with
        gain := 1 }.ReadLux scripted M).2 = (0, none) ∧
    (∀ ambient ir : Nat, scaleGain 1 ambient ir
        = ((16 * ambient) % 65536, (16 * ir) % 65536)) ∧
    (∀ ambient ir : Nat, ambient < 65536 → ir < 65536 →
      (scaleGain 1 ambient ir = (16 * ambient, 16 * ir) ↔ ambient < 4096 ∧ ir < 4096)) := by
  refine ⟨by decide, by decide, ?_, ?_, ?_⟩
  · rw [ReadLux_fixed_ok scripted M
      { TSL2561.init [ok [], ok [0x00, 0x10], ok [], ok [0x00, 0x08]] with gain := 1 }
      [ok [0x00, 0x10], ok [], ok [0x00, 0x08]]
      [ok [], ok [0x00, 0x08]] [ok [0x00, 0x08]] [] [0x00, 0x10] [0x00, 0x08]
      (Or.inl rfl) rfl rfl rfl rfl]
    have e : scaleGain 1 (wordLE (fill 2 [0x00, 0x10])) (wordLE (fill 2 [0x00, 0x08]))
        = (0, 32768) := by decide
    simp only [e, luxOf_zero_ambient]
  · intro ambient ir
    simp [scaleGain, Nat.mul_comm]
  · intro ambient ir ha hi
    simp only [scaleGain, if_true, Prod.mk.injEq]
    omega

/-! ## TSL2561: the gain autorange -/

theorem commands_append (a b : List Event) : commands (a ++ b) = commands a ++ commands b := by
  simp [commands]

theorem readFull_reliable {σ : Type} (T : Transport σ) (this : TSL2561 σ)
    (hrel : T.Reliable) :
    this.readFull T =
      ({ this with i2c := { dev := chanDev T this.i2c.dev 0xAC, trace := this.i2c.trace ++
          [Event.writeByte 0xAC none, Event.read 2 (chanData T this.i2c.dev 0xAC) none] } },
        chanWord T this.i2c.dev 0xAC, none) := by
  simp [TSL2561.readFull, I2C.WriteByte, I2C.Read, hrel.1, hrel.2.2, chanDev, chanData,
    chanWord]

theorem readIr_reliable {σ : Type} (T : Transport σ) (this : TSL2561 σ)
    (hrel : T.Reliable) :
    this.readIr T =
      ({ this with i2c := { dev := chanDev T this.i2c.dev 0xAE, trace := this.i2c.trace ++
          [Event.writeByte 0xAE none, Event.read 2 (chanData T this.i2c.dev 0xAE) none] } },
        chanWord T this.i2c.dev 0xAE, none) := by
  simp [TSL2561.readIr, I2C.WriteByte, I2C.Read, hrel.1, hrel.2.2, chanDev, chanData,
    chanWord]

/-- C5: `ReadLux` with the gain unset on a transport that never fails returns no
error and reads the full channel first (`a`); the ir channel (`i`) is read at
that stage exactly when `a < 0xFFFF`. With `a < 0xFFFF` and `i < 0xFFFF` the gain
ends at 16, two commands were written and the lux comes from `a`, `i`. With
`a < 0xFFFF <= i` or with `0xFFFF <= a` (no ir read then) the gain ends at 1, both
channels are read again and the lux comes from the re-read words only (scaled
by 16 on `uint16`). The gain ends at 1 exactly when `a` or `i` is saturated. -/
theorem ReadLux_autorange {σ : Type} (T : Transport σ) (M : Float32Model)
    (this : TSL2561 σ) (hrel : T.Reliable) (hg : this.gain = 0) :
    (this.ReadLux T M).2.2 = none ∧
    (chanWord T this.i2c.dev 0xAC < 0xFFFF →
      chanWord T (chanDev T this.i2c.dev 0xAC) 0xAE < 0xFFFF →
        (this.ReadLux T M).1.gain = 16 ∧
        commands (this.ReadLux T M).1.i2c.trace = commands this.i2c.trace ++ [0xAC, 0xAE] ∧
        (this.ReadLux T M).2.1 = luxOf M (chanWord T this.i2c.dev 0xAC)
          (chanWord T (chanDev T this.i2c.dev 0xAC) 0xAE)) ∧
    (chanWord T this.i2c.dev 0xAC < 0xFFFF →
      0xFFFF ≤ chanWord T (chanDev T this.i2c.dev 0xAC) 0xAE →
        (this.ReadLux T M).1.gain = 1 ∧
        commands (this.ReadLux T M).1.i2c.trace
          = commands this.i2c.trace ++ [0xAC, 0xAE, 0xAC, 0xAE] ∧
        (this.ReadLux T M).2.1 =
          luxOf M
            ((chanWord T (chanDev T (chanDev T this.i2c.dev 0xAC) 0xAE) 0xAC * 16) % 65536)
            ((chanWord T (chanDev T (chanDev T (chanDev T this.i2c.dev 0xAC) 0xAE) 0xAC)
              0xAE * 16) % 65536)) ∧
    (0xFFFF ≤ chanWord T this.i2c.dev 0xAC →
        (this.ReadLux T M).1.gain = 1 ∧
        commands (this.ReadLux T M).1.i2c.trace
          = commands this.i2c.trace ++ [0xAC, 0xAC, 0xAE] ∧
        (this.ReadLux T M).2.1 =
          luxOf M
            ((chanWord T (chanDev T this.i2c.dev 0xAC) 0xAC * 16) % 65536)
            ((chanWord T (chanDev T (chanDev T this.i2c.dev 0xAC) 0xAC) 0xAE * 16)
              % 65536)) ∧
    ((this.ReadLux T M).1.gain = 1 ↔
      (0xFFFF ≤ chanWord T this.i2c.dev 0xAC ∨
        0xFFFF ≤ chanWord T (chanDev T this.i2c.dev 0xAC) 0xAE)) := by
  have hne : ¬ ((0 : Int) = 1 ∨ (0 : Int) = 16) := by decide
  by_cases ha : chanWord T this.i2c.dev 0xAC < 0xFFFF
  · by_cases hi : chanWord T (chanDev T this.i2c.dev 0xAC) 0xAE < 0xFFFF
    · have hnot : ¬ (0xFFFF ≤ chanWord T this.i2c.dev 0xAC ∨
          0xFFFF ≤ chanWord T (chanDev T this.i2c.dev 0xAC) 0xAE) := by omega
      have hna : ¬ (0xFFFF ≤ chanWord T this.i2c.dev 0xAC) := by omega
      have hni : ¬ (0xFFFF ≤ chanWord T (chanDev T this.i2c.dev 0xAC) 0xAE) := by omega
      simp [TSL2561.ReadLux, hg, readFull_reliable T _ hrel, readIr_reliable T _ hrel, ha, hi,
        hna, hni, TSL2561.finishLux, scaleGain, commands_append, commands]
    · have hi2 : 0xFFFF ≤ chanWord T (chanDev T this.i2c.dev 0xAC) 0xAE := by omega
      have hna : ¬ (0xFFFF ≤ chanWord T this.i2c.dev 0xAC) := by omega
      simp [TSL2561.ReadLux, hg, readFull_reliable T _ hrel, readIr_reliable T _ hrel, ha, hi,
        hi2, hna, TSL2561.finishLux, scaleGain, commands_append, commands]
  · have ha2 : 0xFFFF ≤ chanWord T this.i2c.dev 0xAC := by omega
    simp [TSL2561.ReadLux, hg, readFull_reliable T _ hrel, readIr_reliable T _ hrel, ha,
      ha2, TSL2561.finishLux, scaleGain, commands_append, commands]

theorem replay_reliable : replay.Reliable :=
  ⟨fun _ _ => rfl, fun _ _ => rfl, fun _ _ => rfl⟩

/-- Witness of C5: the first full channel read is saturated (`0xFFFF`); the
channels are read again (`16` and `8`), the gain ends at 1 and three commands
were written. -/
theorem ReadLux_autorange_witness :
    replay.Reliable ∧
    (TSL2561.init [[0xFF, 0xFF], [0x10, 0x00], [0x08, 0x00]]).gain = 0 ∧
    ((TSL2561.init [[0xFF, 0xFF], [0x10, 0x00], [0x08, 0x00]]).ReadLux replay
      Float32Model.plain).1.gain = 1 ∧
    commands ((TSL2561.init [[0xFF, 0xFF], [0x10, 0x00], [0x08, 0x00]]).ReadLux replay
      Float32Model.plain).1.i2c.trace = [0xAC, 0xAC, 0xAE] ∧
    ((TSL2561.init [[0xFF, 0xFF], [0x10, 0x00], [0x08, 0x00]]).ReadLux replay
      Float32Model.plain).2.1 = luxOf Float32Model.plain 256 128 := by
  have h := ReadLux_autorange replay Float32Model.plain
    (TSL2561.init [[0xFF, 0xFF], [0x10, 0x00], [0x08, 0x00]]) replay_reliable rfl
  have h3 := h.2.2.2.1 (by decide)
  exact ⟨replay_reliable, rfl, h3.1, h3.2.1, h3.2.2⟩

/-! ## Errors of the synchronous reads -/


theorem firstFailure_append (a b : List Event) (err : Option BusError)
    (ha : FirstFailure a none) (hb : FirstFailure b err) : FirstFailure (a ++ b) err := by
  cases err with
  | none =>
    intro ev hev
    rcases List.mem_append.mp hev with h | h
    · exact ha ev h
    · exact hb ev h
  | some e =>
    obtain ⟨pre, ev, hpre, hop, herr, hall⟩ := hb
    refine ⟨a ++ pre, ev, by rw [hpre, List.append_assoc], hop, herr, ?_⟩
    intro x hx
    rcases List.mem_append.mp hx with h | h
    · exact ha x h
    · exact hall x h

theorem firstFailure_iff (evs : List Event) (err : Option BusError)
    (h : FirstFailure evs err) :
    (err ≠ none ↔ ∃ ev ∈ evs, ev.isBusOp = true ∧ ev.err ≠ none) := by
  cases err with
  | none =>
    constructor
    · intro hc; exact absurd rfl hc
    · rintro ⟨ev, hev, _, hne⟩
      exact absurd (h ev hev) hne
  | some e =>
    obtain ⟨pre, ev, hpre, hop, herr, _⟩ := h
    constructor
    · intro _
      exact ⟨ev, by rw [hpre]; simp, hop, by rw [herr]; simp⟩
    · intro _; simp

theorem surfaces_of (before after evs : List Event) (value : ℚ) (err : Option BusError)
    (h1 : after = before ++ evs) (h2 : FirstFailure evs err) (h3 : err ≠ none → value = 0) :
    Surfaces before after value err :=
  ⟨evs, h1, h2, firstFailure_iff evs err h2, h3⟩

theorem ReadTemperature_spec {σ : Type} (T : Transport σ) (M : Float32Model)
    (this : HTU21D σ) :
    Surfaces this.i2c.trace (this.ReadTemperature T M).1.i2c.trace
      (this.ReadTemperature T M).2.1 (this.ReadTemperature T M).2.2 := by
  rcases hw : T.writeByte this.i2c.dev 0xF3 with ⟨d1, e1⟩
  cases e1 with
  | some e =>
    refine surfaces_of _ _ [Event.writeByte 0xF3 (some e)] _ _ ?_ ?_ ?_
    · simp [HTU21D.ReadTemperature, I2C.WriteByte, hw]
    · simp only [HTU21D.ReadTemperature, I2C.WriteByte, hw]
      exact ⟨[], _, rfl, rfl, rfl, by simp⟩
    · simp [HTU21D.ReadTemperature, I2C.WriteByte, hw]
  | none =>
    rcases hr : T.read d1 3 with ⟨d2, data, e2⟩
    cases e2 with
    | some e =>
      refine surfaces_of _ _
        [Event.writeByte 0xF3 none, Event.sleep 100, Event.read 3 data (some e)] _ _ ?_ ?_ ?_
      · simp [HTU21D.ReadTemperature, I2C.WriteByte, I2C.Read, I2C.Sleep, hw, hr]
      · simp only [HTU21D.ReadTemperature, I2C.WriteByte, I2C.Read, I2C.Sleep, hw, hr]
        exact ⟨[Event.writeByte 0xF3 none, Event.sleep 100], _, rfl, rfl, rfl,
          by simp [Event.err]⟩
      · simp [HTU21D.ReadTemperature, I2C.WriteByte, I2C.Read, I2C.Sleep, hw, hr]
    | none =>
      refine surfaces_of _ _
        [Event.writeByte 0xF3 none, Event.sleep 100, Event.read 3 data none] _ _ ?_ ?_ ?_
      · simp [HTU21D.ReadTemperature, I2C.WriteByte, I2C.Read, I2C.Sleep, hw, hr]
      · simp only [HTU21D.ReadTemperature, I2C.WriteByte, I2C.Read, I2C.Sleep, hw, hr]
        simp [FirstFailure, Event.err]
      · simp [HTU21D.ReadTemperature, I2C.WriteByte, I2C.Read, I2C.Sleep, hw, hr]

theorem ReadHumidity_spec {σ : Type} (T : Transport σ) (M : Float32Model)
    (this : HTU21D σ) :
    Surfaces this.i2c.trace (this.ReadHumidity T M).1.i2c.trace
      (this.ReadHumidity T M).2.1 (this.ReadHumidity T M).2.2 := by
  rcases hw : T.writeByte this.i2c.dev 0xF5 with ⟨d1, e1⟩
  cases e1 with
  | some e =>
    refine surfaces_of _ _ [Event.writeByte 0xF5 (some e)] _ _ ?_ ?_ ?_
    · simp [HTU21D.ReadHumidity, I2C.WriteByte, hw]
    · simp only [HTU21D.ReadHumidity, I2C.WriteByte, hw]
      exact ⟨[], _, rfl, rfl, rfl, by simp⟩
    · simp [HTU21D.ReadHumidity, I2C.WriteByte, hw]
  | none =>
    rcases hr : T.read d1 3 with ⟨d2, data, e2⟩
    cases e2 with
    | some e =>
      refine surfaces_of _ _
        [Event.writeByte 0xF5 none, Event.sleep 100, Event.read 3 data (some e)] _ _ ?_ ?_ ?_
      · simp [HTU21D.ReadHumidity, I2C.WriteByte, I2C.Read, I2C.Sleep, hw, hr]
      · simp only [HTU21D.ReadHumidity, I2C.WriteByte, I2C.Read, I2C.Sleep, hw, hr]
        exact ⟨[Event.writeByte 0xF5 none, Event.sleep 100], _, rfl, rfl, rfl,
          by simp [Event.err]⟩
      · simp [HTU21D.ReadHumidity, I2C.WriteByte, I2C.Read, I2C.Sleep, hw, hr]
    | none =>
      refine surfaces_of _ _
        [Event.writeByte 0xF5 none, Event.sleep 100, Event.read 3 data none] _ _ ?_ ?_ ?_
      · simp [HTU21D.ReadHumidity, I2C.WriteByte, I2C.Read, I2C.Sleep, hw, hr]
      · simp only [HTU21D.ReadHumidity, I2C.WriteByte, I2C.Read, I2C.Sleep, hw, hr]
        simp [FirstFailure, Event.err]
      · simp [HTU21D.ReadHumidity, I2C.WriteByte, I2C.Read, I2C.Sleep, hw, hr]

theorem readFull_spec {σ : Type} (T : Transport σ) (this : TSL2561 σ) :
    ChannelRun this (this.readFull T) 0xAC := by
  rcases hw : T.writeByte this.i2c.dev 0xAC with ⟨d1, e1⟩
  cases e1 with
  | some e =>
    refine ⟨{ dev := d1, trace := this.i2c.trace ++ [Event.writeByte 0xAC (some e)] },
      [Event.writeByte 0xAC (some e)], ?_, rfl, ?_, ?_, ⟨_, rfl, rfl⟩, rfl⟩
    · simp only [TSL2561.readFull, I2C.WriteByte, hw]
    · simp only [TSL2561.readFull, I2C.WriteByte, hw]
      exact ⟨[], _, rfl, rfl, rfl, by simp⟩
    · simp [TSL2561.readFull, I2C.WriteByte, hw]
  | none =>
    rcases hr : T.read d1 2 with ⟨d2, data, e2⟩
    cases e2 with
    | some e =>
      refine ⟨{ dev := d2, trace := this.i2c.trace ++
          [Event.writeByte 0xAC none, Event.read 2 data (some e)] },
        [Event.writeByte 0xAC none, Event.read 2 data (some e)], ?_, rfl, ?_, ?_,
        ⟨_, rfl, rfl⟩, rfl⟩
      · simp [TSL2561.readFull, I2C.WriteByte, I2C.Read, hw, hr]
      · simp only [TSL2561.readFull, I2C.WriteByte, I2C.Read, hw, hr]
        exact ⟨[Event.writeByte 0xAC none], _, rfl, rfl, rfl, by simp [Event.err]⟩
      · simp [TSL2561.readFull, I2C.WriteByte, I2C.Read, hw, hr]
    | none =>
      refine ⟨{ dev := d2, trace := this.i2c.trace ++
          [Event.writeByte 0xAC none, Event.read 2 data none] },
        [Event.writeByte 0xAC none, Event.read 2 data none], ?_, rfl, ?_, ?_,
        ⟨_, rfl, rfl⟩, rfl⟩
      · simp [TSL2561.readFull, I2C.WriteByte, I2C.Read, hw, hr]
      · simp only [TSL2561.readFull, I2C.WriteByte, I2C.Read, hw, hr]
        simp [FirstFailure, Event.err]
      · simp [TSL2561.readFull, I2C.WriteByte, I2C.Read, hw, hr]

theorem readIr_spec {σ : Type} (T : Transport σ) (this : TSL2561 σ) :
    ChannelRun this (this.readIr T) 0xAE := by
  rcases hw : T.writeByte this.i2c.dev 0xAE with ⟨d1, e1⟩
  cases e1 with
  | some e =>
    refine ⟨{ dev := d1, trace := this.i2c.trace ++ [Event.writeByte 0xAE (some e)] },
      [Event.writeByte 0xAE (some e)], ?_, rfl, ?_, ?_, ⟨_, rfl, rfl⟩, rfl⟩
    · simp only [TSL2561.readIr, I2C.WriteByte, hw]
    · simp only [TSL2561.readIr, I2C.WriteByte, hw]
      exact ⟨[], _, rfl, rfl, rfl, by simp⟩
    · simp [TSL2561.readIr, I2C.WriteByte, hw]
  | none =>
    rcases hr : T.read d1 2 with ⟨d2, data, e2⟩
    cases e2 with
    | some e =>
      refine ⟨{ dev := d2, trace := this.i2c.trace ++
          [Event.writeByte 0xAE none, Event.read 2 data (some e)] },
        [Event.writeByte 0xAE none, Event.read 2 data (some e)], ?_, rfl, ?_, ?_,
        ⟨_, rfl, rfl⟩, rfl⟩
      · simp [TSL2561.readIr, I2C.WriteByte, I2C.Read, hw, hr]
      · simp only [TSL2561.readIr, I2C.WriteByte, I2C.Read, hw, hr]
        exact ⟨[Event.writeByte 0xAE none], _, rfl, rfl, rfl, by simp [Event.err]⟩
      · simp [TSL2561.readIr, I2C.WriteByte, I2C.Read, hw, hr]
    | none =>
      refine ⟨{ dev := d2, trace := this.i2c.trace ++
          [Event.writeByte 0xAE none, Event.read 2 data none] },
        [Event.writeByte 0xAE none, Event.read 2 data none], ?_, rfl, ?_, ?_,
        ⟨_, rfl, rfl⟩, rfl⟩
      · simp [TSL2561.readIr, I2C.WriteByte, I2C.Read, hw, hr]
      · simp only [TSL2561.readIr, I2C.WriteByte, I2C.Read, hw, hr]
        simp [FirstFailure, Event.err]
      · simp [TSL2561.readIr, I2C.WriteByte, I2C.Read, hw, hr]


theorem blockWrites_append (a b : List Event) :
    blockWrites (a ++ b) = blockWrites a ++ blockWrites b := by
  simp [blockWrites]


theorem twoReads_run {σ : Type} (T : Transport σ) (M : Float32Model) (s : TSL2561 σ) :
    ∃ (h : I2C σ) (evs : List Event),
      (twoReads T M s).1 = { s with i2c := h } ∧
      h.trace = s.i2c.trace ++ evs ∧
      FirstFailure evs (twoReads T M s).2.2 ∧
      ((twoReads T M s).2.2 ≠ none → (twoReads T M s).2.1 = 0) ∧
      blockWrites evs = [] ∧ (∀ c ∈ commands evs, c = 0xAC ∨ c = 0xAE) := by
  unfold twoReads
  obtain ⟨h1, evs1, hs1, ht1, hf1, hz1, ⟨_, hc1, _⟩, hb1⟩ := readFull_spec T s
  rcases hr1 : s.readFull T with ⟨s1, a, e1⟩
  rw [hr1] at hs1 hf1 hz1
  simp only at hs1 hf1 hz1
  subst hs1
  cases e1 with
  | some e =>
    refine ⟨h1, evs1, rfl, ht1, hf1, fun _ => rfl, hb1, ?_⟩
    intro c hc; rw [hc1] at hc; simp at hc; exact Or.inl hc
  | none =>
    simp only
    obtain ⟨h2, evs2, hs2, ht2, hf2, hz2, ⟨_, hc2, _⟩, hb2⟩ :=
      readIr_spec T { s with i2c := h1 }
    rcases hr2 : TSL2561.readIr T { s with i2c := h1 } with ⟨s2, i, e2⟩
    rw [hr2] at hs2 hf2 hz2
    simp only at hs2 hf2 hz2 ht2
    subst hs2
    have htr : h2.trace = s.i2c.trace ++ (evs1 ++ evs2) := by
      rw [ht2, ht1, List.append_assoc]
    have hcm : ∀ c ∈ commands (evs1 ++ evs2), c = 0xAC ∨ c = 0xAE := by
      intro c hc
      rw [commands_append, hc1, hc2] at hc
      simp at hc
      exact hc
    have hbw : blockWrites (evs1 ++ evs2) = [] := by
      rw [blockWrites_append, hb1, hb2]; rfl
    cases e2 with
    | some e =>
      exact ⟨h2, evs1 ++ evs2, rfl, htr, firstFailure_append _ _ _ hf1 hf2, fun _ => rfl,
        hbw, hcm⟩
    | none =>
      refine ⟨h2, evs1 ++ evs2, rfl, htr, firstFailure_append _ _ _ hf1 hf2, ?_, hbw, hcm⟩
      intro hc
      exact absurd rfl hc

theorem ReadLux_run {σ : Type} (T : Transport σ) (M : Float32Model) (this : TSL2561 σ) :
    LuxRun this (this.ReadLux T M) := by
  by_cases hg : this.gain = 1 ∨ this.gain = 16
  · have e : this.ReadLux T M = twoReads T M this := by
      simp only [TSL2561.ReadLux, hg, if_true, twoReads]
    rw [e]
    obtain ⟨h, evs, hs, ht, hf, hz, hb, hc⟩ := twoReads_run T M this
    exact ⟨h, this.gain, evs, by rw [hs], ht, hf, hz, Or.inl rfl, hb, hc⟩
  · by_cases h0 : this.gain = 0
    · simp only [TSL2561.ReadLux, hg, if_false, h0, if_true]
      obtain ⟨h1, evs1, hs1, ht1, hf1, hz1, ⟨_, hc1, _⟩, hb1⟩ :=
        readFull_spec T { this with gain := 16 }
      rcases hr1 : TSL2561.readFull T { this with gain := 16 } with ⟨s1, a, e1⟩
      rw [hr1] at hs1 hf1 hz1
      simp only at hs1 hf1 hz1 ht1
      subst hs1
      have hcm1 : ∀ c ∈ commands evs1, c = 0xAC ∨ c = 0xAE := by
        intro c hc; rw [hc1] at hc; simp at hc; exact Or.inl hc
      cases e1 with
      | some e =>
        exact ⟨h1, 16, evs1, rfl, ht1, hf1, fun _ => rfl, Or.inr ⟨h0, Or.inl rfl⟩, hb1, hcm1⟩
      | none =>
        simp only
        by_cases ha : a < 0xFFFF
        · simp only [ha, if_true]
          obtain ⟨h2, evs2, hs2, ht2, hf2, hz2, ⟨_, hc2, _⟩, hb2⟩ :=
            readIr_spec T { this with i2c := h1, gain := 16 }
          rcases hr2 : TSL2561.readIr T { this with i2c := h1, gain := 16 } with ⟨s2, i, e2⟩
          rw [hr2] at hs2 hf2 hz2
          simp only at hs2 hf2 hz2 ht2
          subst hs2
          have htr : h2.trace = this.i2c.trace ++ (evs1 ++ evs2) := by
            rw [ht2, ht1, List.append_assoc]
          have hcm : ∀ c ∈ commands (evs1 ++ evs2), c = 0xAC ∨ c = 0xAE := by
            intro c hc
            rw [commands_append, hc1, hc2] at hc
            simp at hc
            exact hc
          have hbw : blockWrites (evs1 ++ evs2) = [] := by
            rw [blockWrites_append, hb1, hb2]; rfl
          have hff := firstFailure_append _ _ _ hf1 hf2
          cases e2 with
          | some e =>
            exact ⟨h2, 16, evs1 ++ evs2, rfl, htr, hff, fun _ => rfl,
              Or.inr ⟨h0, Or.inl rfl⟩, hbw, hcm⟩
          | none =>
            simp only
            by_cases hsat : a ≥ 0xFFFF ∨ i ≥ 0xFFFF
            · simp only [hsat, if_true]
              obtain ⟨h3, evs3, hs3, ht3, hf3, hz3, hb3, hc3⟩ :=
                twoReads_run T M { this with i2c := h2, gain := 1 }
              refine ⟨h3, 1, (evs1 ++ evs2) ++ evs3, ?_, ?_, ?_, ?_,
                Or.inr ⟨h0, Or.inr rfl⟩, ?_, ?_⟩
              · exact hs3
              · rw [ht3]; simp only; rw [htr, List.append_assoc]
              · exact firstFailure_append _ _ _ hff hf3
              · exact hz3
              · rw [blockWrites_append, hbw, hb3]; rfl
              · intro c hc
                rw [commands_append] at hc
                rcases List.mem_append.mp hc with h | h
                · exact hcm c h
                · exact hc3 c h
            · simp only [hsat, if_false, TSL2561.finishLux]
              exact ⟨h2, 16, evs1 ++ evs2, rfl, htr, hff, fun hc => absurd rfl hc,
                Or.inr ⟨h0, Or.inl rfl⟩, hbw, hcm⟩
        · have hsat : a ≥ 0xFFFF ∨ (0 : Nat) ≥ 0xFFFF := Or.inl (by omega)
          simp only [ha, if_false, hsat, if_true]
          obtain ⟨h3, evs3, hs3, ht3, hf3, hz3, hb3, hc3⟩ :=
            twoReads_run T M { this with i2c := h1, gain := 1 }
          refine ⟨h3, 1, evs1 ++ evs3, ?_, ?_, ?_, ?_,
            Or.inr ⟨h0, Or.inr rfl⟩, ?_, ?_⟩
          · exact hs3
          · rw [ht3]; simp only; rw [ht1, List.append_assoc]
          · exact firstFailure_append _ _ _ hf1 hf3
          · exact hz3
          · rw [blockWrites_append, hb1, hb3]; rfl
          · intro c hc
            rw [commands_append] at hc
            rcases List.mem_append.mp hc with h | h
            · exact hcm1 c h
            · exact hc3 c h
    · simp only [TSL2561.ReadLux, hg, if_false, h0, TSL2561.finishLux]
      refine ⟨this.i2c, this.gain, [], rfl, by simp, ?_, fun hc => absurd rfl hc, Or.inl rfl,
        rfl, ?_⟩
      · intro ev hev; simp at hev
      · intro c hc; simp [commands] at hc

/-! ## The refresh loop -/

theorem refreshStep_Temperature {σ : Type} (T : Transport σ) (M : Float32Model)
    (this : HTU21D σ) :
    (this.refreshStep T M).Temperature = (this.ReadTemperature T M).2.1 := by
  unfold HTU21D.refreshStep
  simp only
  rcases hw : T.writeByte (this.ReadTemperature T M).1.i2c.dev 0xF5 with ⟨d1, e1⟩
  cases e1 with
  | some e => simp [HTU21D.ReadHumidity, I2C.WriteByte, hw]
  | none =>
    rcases hr : T.read d1 3 with ⟨d2, data, e2⟩
    cases e2 <;> simp [HTU21D.ReadHumidity, I2C.WriteByte, I2C.Read, I2C.Sleep, hw, hr]

/-- The humidity read only looks at the `i2c` field. -/
theorem ReadHumidity_congr {σ : Type} (T : Transport σ) (M : Float32Model)
    (a b : HTU21D σ) (h : a.i2c = b.i2c) :
    (a.ReadHumidity T M).2 = (b.ReadHumidity T M).2 := by
  rcases hw : T.writeByte b.i2c.dev 0xF5 with ⟨d1, e1⟩
  cases e1 with
  | some e => simp [HTU21D.ReadHumidity, I2C.WriteByte, hw, h]
  | none =>
    rcases hr : T.read d1 3 with ⟨d2, data, e2⟩
    cases e2 <;> simp [HTU21D.ReadHumidity, I2C.WriteByte, I2C.Read, I2C.Sleep, hw, hr, h]

theorem refreshStep_Humidity {σ : Type} (T : Transport σ) (M : Float32Model)
    (this : HTU21D σ) :
    (this.refreshStep T M).Humidity
      = ((this.ReadTemperature T M).1.ReadHumidity T M).2.1 := by
  have c := ReadHumidity_congr T M
    { (this.ReadTemperature T M).1 with Temperature := (this.ReadTemperature T M).2.1 }
    (this.ReadTemperature T M).1 rfl
  unfold HTU21D.refreshStep
  simp only
  rw [c]

/-- C6 (as the code has it): in one iteration of the refresh loop a failed
measurement publishes 0, the value the failed read returns: the temperature when
`ReadTemperature` fails, the humidity when the `ReadHumidity` that follows it
fails, the lux when `ReadLux` fails. What was published before is lost. -/
theorem refreshStep_failure_publishes_zero {σ : Type} (T : Transport σ) (M : Float32Model) :
    (∀ this : HTU21D σ, (this.ReadTemperature T M).2.2 ≠ none →
      (this.refreshStep T M).Temperature = 0) ∧
    (∀ this : HTU21D σ, ((this.ReadTemperature T M).1.ReadHumidity T M).2.2 ≠ none →
      (this.refreshStep T M).Humidity = 0) ∧
    (∀ this : TSL2561 σ, (this.ReadLux T M).2.2 ≠ none →
      (this.refreshStep T M).Lux = 0) := by
  refine ⟨?_, ?_, ?_⟩
  · intro this h
    obtain ⟨_, _, _, _, hz⟩ := ReadTemperature_spec T M this
    rw [refreshStep_Temperature]; exact hz h
  · intro this h
    obtain ⟨_, _, _, _, hz⟩ := ReadHumidity_spec T M (this.ReadTemperature T M).1
    rw [refreshStep_Humidity]; exact hz h
  · intro this h
    obtain ⟨_, _, _, _, _, _, hz, _⟩ := ReadLux_run T M this
    have e : (this.refreshStep T M).Lux = (this.ReadLux T M).2.1 := rfl
    rw [e]; exact hz h

/-- Counterexample to C6: on a device whose first operation fails, a sensor
publishing the temperature 20 (the lux 100) publishes 0 after one iteration. -/
theorem refreshStep_keeps_value_counterexample :
    ({ HTU21D.init [fail 5] with Temperature := 20 }.ReadTemperature scripted
        Float32Model.plain).2.2 = some { code := 5 } ∧
    ({ HTU21D.init [fail 5] with Temperature := 20 }.refreshStep scripted
        Float32Model.plain).Temperature ≠
      ({ HTU21D.init [fail 5] with Temperature := 20 } : HTU21D _).Temperature ∧
    ({ TSL2561.init [fail 5] with Lux := 100 }.ReadLux scripted
        Float32Model.plain).2.2 = some { code := 5 } ∧
    ({ TSL2561.init [fail 5] with Lux := 100 }.refreshStep scripted
        Float32Model.plain).Lux ≠
      ({ TSL2561.init [fail 5] with Lux := 100 } : TSL2561 _).Lux := by
  refine ⟨rfl, ?_, rfl, ?_⟩
  · rw [refreshStep_Temperature]
    have e : ({ HTU21D.init [fail 5] with Temperature := 20 }.ReadTemperature scripted
        Float32Model.plain).2.1 = 0 := rfl
    rw [e]
    norm_num
  · have e : ({ TSL2561.init [fail 5] with Lux := 100 }.refreshStep scripted
        Float32Model.plain).Lux = 0 := rfl
    rw [e]
    norm_num

/-- Witness of C6 as amended: a failing temperature write, a failing humidity
write after a good temperature read, a failing lux read. -/
theorem refreshStep_failure_publishes_zero_witness :
    ({ HTU21D.init [fail 5] with Temperature := 20 }.ReadTemperature scripted
        Float32Model.plain).2.2 ≠ none ∧
    ({ HTU21D.init [fail 5] with Temperature := 20 }.refreshStep scripted
        Float32Model.plain).Temperature = 0 ∧
    (({ HTU21D.init [ok [], ok [0x80, 0x00, 0x00], fail 7] with Humidity := 40
        }.ReadTemperature scripted Float32Model.plain).1.ReadHumidity scripted
        Float32Model.plain).2.2 ≠ none ∧
    ({ HTU21D.init [ok [], ok [0x80, 0x00, 0x00], fail 7] with Humidity := 40
        }.refreshStep scripted Float32Model.plain).Humidity = 0 ∧
    ({ TSL2561.init [ok [], fail 5] with Lux := 100 }.ReadLux scripted
        Float32Model.plain).2.2 ≠ none ∧
    ({ TSL2561.init [ok [], fail 5] with Lux := 100 }.refreshStep scripted
        Float32Model.plain).Lux = 0 := by
  have h := refreshStep_failure_publishes_zero scripted Float32Model.plain
  have h1 : ({ HTU21D.init [fail 5] with Temperature := 20 }.ReadTemperature scripted
        Float32Model.plain).2.2 ≠ none := by decide
  have h2 : (({ HTU21D.init [ok [], ok [0x80, 0x00, 0x00], fail 7] with Humidity := 40
        }.ReadTemperature scripted Float32Model.plain).1.ReadHumidity scripted
        Float32Model.plain).2.2 ≠ none := by decide
  have h3 : ({ TSL2561.init [ok [], fail 5] with Lux := 100 }.ReadLux scripted
        Float32Model.plain).2.2 ≠ none := by decide
  exact ⟨h1, h.1 _ h1, h2, h.2.1 _ h2, h3, h.2.2 _ h3⟩

/-! ## TSL2561: SetGain -/

theorem SetGain_gain {σ : Type} (T : Transport σ) (this : TSL2561 σ) (gain : Int) :
    (this.SetGain T gain).gain = gain := by
  by_cases h : this.gain = gain
  · simp [TSL2561.SetGain, h]
  · simp [TSL2561.SetGain, h]

/-- C7: `SetGain(g)` on a sensor whose gain is already `g` returns the sensor
as it was: nothing is appended to the trace, so there is no bus write and no
sleep. For every sensor a second `SetGain(g)` changes nothing, and the two calls
together issue the writes of the first. -/
theorem SetGain_same_gain {σ : Type} (T : Transport σ) (this : TSL2561 σ) (g : Int) :
    (this.gain = g → this.SetGain T g = this) ∧
    (this.gain = g → (this.SetGain T g).i2c.trace = this.i2c.trace) ∧
    (this.SetGain T g).SetGain T g = this.SetGain T g ∧
    blockWrites ((this.SetGain T g).SetGain T g).i2c.trace
      = blockWrites (this.SetGain T g).i2c.trace := by
  have h1 : this.gain = g → this.SetGain T g = this := by
    intro h
    simp [TSL2561.SetGain, h]
  have h2 : (this.SetGain T g).SetGain T g = this.SetGain T g := by
    have hg := SetGain_gain T this g
    generalize this.SetGain T g = s at hg
    simp [TSL2561.SetGain, hg]
  refine ⟨h1, ?_, h2, ?_⟩
  · intro h; rw [h1 h]
  · rw [h2]

/-- Witness of C7: a sensor at gain 1 asked for gain 1. -/
theorem SetGain_same_gain_witness :
    ({ TSL2561.init [fail 3] with gain := 1 } : TSL2561 _).gain = 1 ∧
    ({ TSL2561.init [fail 3] with gain := 1 }.SetGain scripted 1).i2c.trace = [] := by
  have h := SetGain_same_gain scripted { TSL2561.init [fail 3] with gain := 1 } 1
  exact ⟨rfl, h.2.1 rfl⟩

/-- C8: `SetGain(g)` with `g` different from the current gain appends to the
trace exactly one `Write` of the two bytes `0x81, 0x02` when `g = 1` and
`0x81, 0x12` otherwise (so when `g = 16`), then the sleep of 800 ms; afterwards
`Gain()` returns `g`; no other field changes but the device state. -/
theorem SetGain_new_gain {σ : Type} (T : Transport σ) (this : TSL2561 σ) (g : Int)
    (h : this.gain ≠ g) :
    (this.SetGain T g).i2c.trace = this.i2c.trace ++
      [Event.write [0x81, if g = 1 then 0x02 else 0x12]
          (T.write this.i2c.dev [0x81, if g = 1 then 0x02 else 0x12]).2,
        Event.sleep 800] ∧
    (g = 1 → blockWrites (this.SetGain T g).i2c.trace
      = blockWrites this.i2c.trace ++ [[0x81, 0x02]]) ∧
    (g = 16 → blockWrites (this.SetGain T g).i2c.trace
      = blockWrites this.i2c.trace ++ [[0x81, 0x12]]) ∧
    commands (this.SetGain T g).i2c.trace = commands this.i2c.trace ∧
    (this.SetGain T g).Gain = g ∧
    (this.SetGain T g).i2c.dev
      = (T.write this.i2c.dev [0x81, if g = 1 then 0x02 else 0x12]).1 ∧
    (this.SetGain T g).Lux = this.Lux ∧
    (this.SetGain T g).RefreshInterval = this.RefreshInterval ∧
    (this.SetGain T g).refresh = this.refresh := by
  have ht : (this.SetGain T g).i2c.trace = this.i2c.trace ++
      [Event.write [0x81, if g = 1 then 0x02 else 0x12]
          (T.write this.i2c.dev [0x81, if g = 1 then 0x02 else 0x12]).2,
        Event.sleep 800] := by
    by_cases h1 : g = 1
    · subst h1
      simp [TSL2561.SetGain, h, I2C.Write, I2C.Sleep]
    · simp [TSL2561.SetGain, h, h1, I2C.Write, I2C.Sleep]
  refine ⟨ht, ?_, ?_, ?_, ?_, ?_, ?_, ?_, ?_⟩
  · intro h1
    rw [ht, blockWrites_append]
    simp [blockWrites, h1]
  · intro h16
    rw [ht, blockWrites_append]
    simp [blockWrites, h16]
  · rw [ht, commands_append]
    simp [commands]
  · exact SetGain_gain T this g
  · by_cases h1 : g = 1
    · subst h1
      simp [TSL2561.SetGain, h, I2C.Write, I2C.Sleep]
    · simp [TSL2561.SetGain, h, h1, I2C.Write, I2C.Sleep]
  · simp [TSL2561.SetGain, h]
  · simp [TSL2561.SetGain, h]
  · simp [TSL2561.SetGain, h]

/-- Witness of C8: a new sensor (gain unset) set to gain 16. -/
theorem SetGain_new_gain_witness :
    (TSL2561.init ([] : List (List Byte × Option BusError))).gain ≠ 16 ∧
    ((TSL2561.init ([] : List (List Byte × Option BusError))).SetGain scripted 16).i2c.trace
      = [Event.write [0x81, 0x12] none, Event.sleep 800] ∧
    ((TSL2561.init ([] : List (List Byte × Option BusError))).SetGain scripted 16).Gain
      = 16 := by
  have h := SetGain_new_gain scripted
    (TSL2561.init ([] : List (List Byte × Option BusError))) 16 (by decide)
  exact ⟨by decide, h.1, h.2.2.2.2.1⟩

/-- Counterexample to C9: `SetGain(5)` on a new sensor leaves the gain 5. -/
theorem gain_invariant_counterexample :
    GainValid (TSL2561.init ([] : List (List Byte × Option BusError))).gain ∧
    ¬ GainValid
      ((TSL2561.init ([] : List (List Byte × Option BusError))).SetGain scripted 5).Gain := by
  refine ⟨Or.inl rfl, ?_⟩
  have e : ((TSL2561.init ([] : List (List Byte × Option BusError))).SetGain scripted 5).Gain
      = 5 := SetGain_gain _ _ _
  rw [e]
  unfold GainValid
  decide

/-- C9 (as the code has it): a sensor built by `NewTSL2561` has the gain unset;
`ReadLux` keeps the gain in `{0, 1, 16}` whatever the transport does; `SetGain(g)`
records `g` as it is, so it keeps the gain in `{0, 1, 16}` exactly when `g`
is one of these. -/
theorem gain_invariant {σ : Type} (T : Transport σ) (M : Float32Model) :
    (∀ (address : Byte) (bus : Int) (dev : σ) (s : TSL2561 σ),
      NewTSL2561 address bus (.ok dev) = .ok s → s.gain = 0) ∧
    (∀ this : TSL2561 σ, GainValid this.gain → GainValid (this.ReadLux T M).1.gain) ∧
    (∀ (this : TSL2561 σ) (g : Int), (this.SetGain T g).gain = g) ∧
    (∀ (this : TSL2561 σ) (g : Int), GainValid (this.SetGain T g).gain ↔ GainValid g) := by
  refine ⟨?_, ?_, ?_, ?_⟩
  · intro address bus dev s h
    simp only [NewTSL2561, Except.ok.injEq] at h
    rw [← h]; rfl
  · intro this hv
    obtain ⟨hh, g, evs, hs, _, _, _, hg, _⟩ := ReadLux_run T M this
    rw [hs]
    simp only
    rcases hg with hg | ⟨_, hg | hg⟩
    · rw [hg]; exact hv
    · rw [hg]; exact Or.inr (Or.inr rfl)
    · rw [hg]; exact Or.inr (Or.inl rfl)
  · intro this g; exact SetGain_gain T this g
  · intro this g; rw [SetGain_gain]

/-- Witness of C9 as amended: a new sensor has the gain unset, and a failing
`ReadLux` on it leaves a gain of the set. -/
theorem gain_invariant_witness :
    NewTSL2561 TSL2561_ADDR 1 (.ok [fail 1]) = .ok (TSL2561.init [fail 1]) ∧
    (TSL2561.init [fail 1]).gain = 0 ∧
    GainValid (TSL2561.init [fail 1]).gain ∧
    GainValid ((TSL2561.init [fail 1]).ReadLux scripted Float32Model.plain).1.gain := by
  have h := gain_invariant scripted Float32Model.plain
  exact ⟨rfl, h.1 TSL2561_ADDR 1 [fail 1] _ rfl, Or.inl rfl, h.2.1 _ (Or.inl rfl)⟩

/-- C10: each synchronous read appends to the trace a run of events that stops
at its first failure. The returned error is non-nil exactly when one of the bus
operations of the run failed; it is then the error of the last event of the run,
nothing before it failed, and the returned value is 0. -/
theorem reads_surface_first_failure {σ : Type} (T : Transport σ) (M : Float32Model) :
    (∀ this : HTU21D σ, Surfaces this.i2c.trace (this.ReadTemperature T M).1.i2c.trace
      (this.ReadTemperature T M).2.1 (this.ReadTemperature T M).2.2) ∧
    (∀ this : HTU21D σ, Surfaces this.i2c.trace (this.ReadHumidity T M).1.i2c.trace
      (this.ReadHumidity T M).2.1 (this.ReadHumidity T M).2.2) ∧
    (∀ this : TSL2561 σ, Surfaces this.i2c.trace (this.ReadLux T M).1.i2c.trace
      (this.ReadLux T M).2.1 (this.ReadLux T M).2.2) := by
  refine ⟨ReadTemperature_spec T M, ReadHumidity_spec T M, ?_⟩
  intro this
  obtain ⟨h, g, evs, hs, ht, hf, hz, _⟩ := ReadLux_run T M this
  exact surfaces_of _ _ evs _ _ (by rw [hs]; exact ht) hf hz

/-! ## HTU21D: the example of the temperature -/

/-- C11 (as the code has it): when the command write and the read of
`ReadTemperature` succeed and deliver the bytes `0x64 0x00`, the masked word is
`0x6400` and the value is within `1/10000` of
`-46.85 + 175.72 * (0x6400 / 65536) = 21.790625`, so about 21.79 degrees, for
every rounding; it is `21.790625` when nothing is rounded. -/
theorem ReadTemperature_example {σ : Type} (T : Transport σ) (M : Float32Model)
    (this : HTU21D σ) (d1 d2 : σ) (rest : List Byte)
    (hw : T.writeByte this.i2c.dev 0xF3 = (d1, none))
    (hr : T.read d1 3 = (d2, 0x64 :: 0x00 :: rest, none)) :
    rawWord (fill 3 (0x64 :: 0x00 :: rest)) = 0x6400 ∧
    (-46.85 + 175.72 * ((0x6400 : ℚ) / 65536) : ℚ) = 21.790625 ∧
    (this.ReadTemperature T M).2.2 = none ∧
    |(this.ReadTemperature T M).2.1 - 21.790625| ≤ 1 / 10000 ∧
    |(this.ReadTemperature T M).2.1 - 21.79| ≤ 1 / 1000 ∧
    (∀ pw : ℚ → ℚ → ℚ,
      (this.ReadTemperature T (Float32Model.exact pw)).2.1 = 21.790625) := by
  have hword : rawWord (fill 3 (0x64 :: 0x00 :: rest)) = 0x6400 := by
    rw [rawWord_eq]; decide
  have hval : ∀ M1 : Float32Model, (this.ReadTemperature T M1).2.1 = tempOfRaw M1 0x6400 := by
    intro M1
    rw [ReadTemperature_ok T M1 this d1 d2 _ hw hr, hword]
  have hx : (0 : ℚ) ≤ ((0x6400 : Nat) : ℚ) / 65536 ∧ ((0x6400 : Nat) : ℚ) / 65536 ≤ 1 := by
    constructor <;> norm_num
  have herr : |(this.ReadTemperature T M).2.1 - 21.790625| ≤ 1 / 10000 := by
    rw [hval M]
    have h := affine_error M (-46.85) 175.72 _ (by norm_num) hx.1 hx.2
    have e : |(-46.85 : ℚ)| = 46.85 := by rw [abs_of_neg (by norm_num)]; norm_num
    rw [e] at h
    have e2 : (-46.85 + 175.72 * (((0x6400 : Nat) : ℚ) / 65536) : ℚ) = 21.790625 := by
      norm_num
    rw [e2] at h
    have e3 : tempOfRaw M 0x6400 = M.add (M.const (-46.85))
        (M.mul (M.const 175.72) (M.rnd (((0x6400 : Nat) : ℚ) / 65536))) := by
      simp only [tempOfRaw, Float32Model.div]
      norm_num
    rw [e3]
    refine le_trans h ?_
    norm_num
  refine ⟨hword, by norm_num, ?_, herr, ?_, ?_⟩
  · rw [ReadTemperature_ok T M this d1 d2 _ hw hr]
  · have h := abs_le.mp herr
    rw [abs_le]
    constructor <;> linarith [h.1, h.2]
  · intro pw
    rw [hval]
    simp only [tempOfRaw, Float32Model.exact, Float32Model.add, Float32Model.mul,
      Float32Model.const, Float32Model.div]
    norm_num

/-- Witness of C11 as amended: the scripted device delivers `0x64 0x00 0x00`. -/
theorem ReadTemperature_example_witness :
    scripted.writeByte (HTU21D.init [ok [], ok [0x64, 0x00, 0x00]]).i2c.dev 0xF3
      = ([ok [0x64, 0x00, 0x00]], none) ∧
    scripted.read [ok [0x64, 0x00, 0x00]] 3 = ([], [0x64, 0x00, 0x00], none) ∧
    ((HTU21D.init [ok [], ok [0x64, 0x00, 0x00]]).ReadTemperature scripted
      Float32Model.plain).2.1 = 21.790625 ∧
    |((HTU21D.init [ok [], ok [0x64, 0x00, 0x00]]).ReadTemperature scripted
      (Float32Model.binary32 (fun x _ => x))).2.1 - 21.79| ≤ 1 / 1000 := by
  have h := ReadTemperature_example scripted (Float32Model.binary32 (fun x _ => x))
    (HTU21D.init [ok [], ok [0x64, 0x00, 0x00]]) [ok [0x64, 0x00, 0x00]] [] [0x00] rfl rfl
  exact ⟨rfl, rfl, h.2.2.2.2.2 (fun x _ => x), h.2.2.2.2.1⟩

/-- Counterexample to C11: for the bytes `0x64 0x00` the temperature, nothing
being rounded, is `21.790625`; it is more than 1.6 degrees away from 23.43. -/
theorem ReadTemperature_example_counterexample :
    ((HTU21D.init [ok [], ok [0x64, 0x00, 0x00]]).ReadTemperature scripted
      Float32Model.plain).2.2 = none ∧
    ((HTU21D.init [ok [], ok [0x64, 0x00, 0x00]]).ReadTemperature scripted
      Float32Model.plain).2.1 = -46.85 + 175.72 * ((0x6400 : ℚ) / 65536) ∧
    ¬ |((HTU21D.init [ok [], ok [0x64, 0x00, 0x00]]).ReadTemperature scripted
      Float32Model.plain).2.1 - 23.43| ≤ 1 := by
  have hv : ((HTU21D.init [ok [], ok [0x64, 0x00, 0x00]]).ReadTemperature scripted
      Float32Model.plain).2.1 = 21.790625 := by
    rw [ReadTemperature_ok scripted Float32Model.plain
      (HTU21D.init [ok [], ok [0x64, 0x00, 0x00]]) [ok [0x64, 0x00, 0x00]] []
      [0x64, 0x00, 0x00] rfl rfl]
    have hword : rawWord (fill 3 [0x64, 0x00, 0x00]) = 0x6400 := by decide
    simp only [hword, tempOfRaw, Float32Model.plain, Float32Model.exact, Float32Model.add,
      Float32Model.mul, Float32Model.const, Float32Model.div]
    norm_num
  refine ⟨rfl, ?_, ?_⟩
  · rw [hv]; norm_num
  · rw [hv]
    rw [abs_le]
    norm_num

/-! ## TSL2561: a zero ambient -/

/-- The lux of `luxOf` is the formula of the branch `branchOf` selects. -/
theorem luxOf_branch (M : Float32Model) (ambient ir : Nat) :
    luxOf M ambient ir =
      match branchOf M (ratioOf M ambient ir) with
      | 1 => M.sub (M.mul (M.const 0.0315) (ambient : ℚ))
          (M.mul (M.mul (M.const 0.0593) (ambient : ℚ)) (M.powF (ratioOf M ambient ir) 1.4))
      | 2 => M.sub (M.mul (M.const 0.0229) (ambient : ℚ)) (M.mul (M.const 0.0291) (ir : ℚ))
      | 3 => M.sub (M.mul (M.const 0.0157) (ambient : ℚ)) (M.mul (M.const 0.018) (ir : ℚ))
      | 4 => M.sub (M.mul (M.const 0.00338) (ambient : ℚ)) (M.mul (M.const 0.0026) (ir : ℚ))
      | _ => 0 := by
  unfold luxOf branchOf
  simp only
  split_ifs <;> rfl

/-- C12 (as the code has it): with a final ambient of 0 the ratio is not finite:
it is NaN when `ir = 0`, and then none of the five conditions of the chain
holds, and it is `+Inf` when `ir > 0`, and then the last condition `ratio > 1.3`
holds and assigns 0. In both cases the lux is 0, and `ReadLux` ends with lux 0
and a nil error. -/
theorem luxOf_ambient_zero {σ : Type} (M : Float32Model) (ir : Nat) :
    (ratioOf M 0 ir).isFinite = false ∧
    (ir = 0 → ratioOf M 0 ir = F32.nan ∧ branchOf M (ratioOf M 0 ir) = 0) ∧
    (0 < ir → ratioOf M 0 ir = F32.posInf ∧ branchOf M (ratioOf M 0 ir) = 5) ∧
    luxOf M 0 ir = 0 ∧
    (∀ (this : TSL2561 σ) (ambient raw : Nat),
      (scaleGain this.gain ambient raw).1 = 0 →
        this.finishLux M ambient raw = (this, 0, none)) ∧
    (∀ (T : Transport σ) (this : TSL2561 σ),
      this.gain ≠ 1 → this.gain ≠ 16 → this.gain ≠ 0 →
        this.ReadLux T M = (this, 0, none)) := by
  have hnan : ir = 0 → ratioOf M 0 ir = F32.nan := by
    intro h; subst h
    simp [ratioOf, Float32Model.quot]
  have hinf : 0 < ir → ratioOf M 0 ir = F32.posInf := by
    intro h
    have h1 : ((ir : ℚ)) ≠ 0 := by exact_mod_cast h.ne.symm
    have h2 : (0 : ℚ) < (ir : ℚ) := by exact_mod_cast h
    simp [ratioOf, Float32Model.quot, h1, h2]
  refine ⟨?_, ?_, ?_, luxOf_zero_ambient M ir, ?_, ?_⟩
  · rcases Nat.eq_zero_or_pos ir with h | h
    · rw [hnan h]; rfl
    · rw [hinf h]; rfl
  · intro h
    refine ⟨hnan h, ?_⟩
    rw [hnan h]
    simp [branchOf, F32.ge, F32.le, F32.gt]
  · intro h
    refine ⟨hinf h, ?_⟩
    rw [hinf h]
    simp [branchOf, F32.ge, F32.le, F32.gt]
  · intro this ambient raw h
    simp only [TSL2561.finishLux, h, luxOf_zero_ambient]
  · intro T this h1 h16 h0
    simp [TSL2561.ReadLux, h1, h16, h0, TSL2561.finishLux, scaleGain, luxOf_zero_ambient]

/-- Witness of C12 as amended: `ir = 5` over a zero ambient, the overflow of
`4096 * 16` at gain 1, and a sensor whose gain is 5. -/
theorem luxOf_ambient_zero_witness :
    ratioOf Float32Model.plain 0 5 = F32.posInf ∧
    branchOf Float32Model.plain (ratioOf Float32Model.plain 0 5) = 5 ∧
    ratioOf Float32Model.plain 0 0 = F32.nan ∧
    branchOf Float32Model.plain (ratioOf Float32Model.plain 0 0) = 0 ∧
    (scaleGain ({ TSL2561.init [fail 1] with gain := 1 } : TSL2561 _).gain 4096 7).1 = 0 ∧
    ({ TSL2561.init [fail 1] with gain := 1 } : TSL2561 _).finishLux Float32Model.plain 4096 7
      = ({ TSL2561.init [fail 1] with gain := 1 }, 0, none) ∧
    ({ TSL2561.init [fail 1] with gain := 5 } : TSL2561 _).ReadLux scripted Float32Model.plain
      = ({ TSL2561.init [fail 1] with gain := 5 }, 0, none) := by
  have h := @luxOf_ambient_zero (List (List Byte × Option BusError)) Float32Model.plain
  have h5 := (h 5).2.2.1 (by decide)
  have h0 := (h 0).2.1 rfl
  exact ⟨h5.1, h5.2, h0.1, h0.2, by decide,
    (h 0).2.2.2.2.1 { TSL2561.init [fail 1] with gain := 1 } 4096 7 (by decide),
    (h 0).2.2.2.2.2 scripted { TSL2561.init [fail 1] with gain := 5 }
      (by decide) (by decide) (by decide)⟩

/-- Counterexample to C12: with `ambient = 0` and `ir = 5` the ratio is `+Inf`
and a condition of the chain holds, the last one, `ratio > 1.3`. -/
theorem luxOf_ambient_zero_counterexample :
    ratioOf Float32Model.plain 0 5 = F32.posInf ∧
    (ratioOf Float32Model.plain 0 5).gt (Float32Model.plain.const 1.3) = true ∧
    branchOf Float32Model.plain (ratioOf Float32Model.plain 0 5) ≠ 0 := by
  have e : ratioOf Float32Model.plain 0 5 = F32.posInf := by
    simp [ratioOf, Float32Model.quot]
  refine ⟨e, ?_, ?_⟩
  · rw [e]; rfl
  · rw [e]
    simp [branchOf, F32.ge, F32.le, F32.gt]

/-! ## TSL2561: the fixed gain path -/

theorem wordLE_two (b0 b1 : Byte) (rest : List Byte) :
    wordLE (fill 2 (b0 :: b1 :: rest)) = b1.val * 256 + b0.val := by
  have h0 := b0.isLt
  have h1 := b1.isLt
  have e : (b1.val * 256) % 65536 = b1.val * 256 := Nat.mod_eq_of_lt (by omega)
  have e2 : (b1.val * 256 + b0.val) % 65536 = b1.val * 256 + b0.val :=
    Nat.mod_eq_of_lt (by omega)
  simp [wordLE, fill, e, e2]

/-- A successful `twoReads` made exactly four successful bus operations. -/
theorem twoReads_success {σ : Type} (T : Transport σ) (M : Float32Model) (s : TSL2561 σ)
    (h : (twoReads T M s).2.2 = none) :
    ∃ (d1 d2 d3 d4 : σ) (da di : List Byte),
      T.writeByte s.i2c.dev 0xAC = (d1, none) ∧ T.read d1 2 = (d2, da, none) ∧
      T.writeByte d2 0xAE = (d3, none) ∧ T.read d3 2 = (d4, di, none) := by
  rcases h1 : T.writeByte s.i2c.dev 0xAC with ⟨d1, e1⟩
  cases e1 with
  | some e => simp [twoReads, TSL2561.readFull, I2C.WriteByte, h1] at h
  | none =>
    rcases h2 : T.read d1 2 with ⟨d2, da, e2⟩
    cases e2 with
    | some e => simp [twoReads, TSL2561.readFull, I2C.WriteByte, I2C.Read, h1, h2] at h
    | none =>
      rcases h3 : T.writeByte d2 0xAE with ⟨d3, e3⟩
      cases e3 with
      | some e =>
        simp [twoReads, TSL2561.readFull, TSL2561.readIr, I2C.WriteByte, I2C.Read, h1, h2,
          h3] at h
      | none =>
        rcases h4 : T.read d3 2 with ⟨d4, di, e4⟩
        cases e4 with
        | some e =>
          simp [twoReads, TSL2561.readFull, TSL2561.readIr, I2C.WriteByte, I2C.Read, h1, h2,
            h3, h4] at h
        | none => exact ⟨d1, d2, d3, d4, da, di, rfl, h2, h3, h4⟩

theorem ReadLux_fixed_eq {σ : Type} (T : Transport σ) (M : Float32Model) (this : TSL2561 σ)
    (hg : this.gain = 1 ∨ this.gain = 16) : this.ReadLux T M = twoReads T M this := by
  simp only [TSL2561.ReadLux, hg, if_true, twoReads]

/-- C15: `ReadLux` on a sensor whose gain is 1 or 16 leaves the gain as it was,
whatever the transport does. When it returns no error it made exactly four bus
operations, all successful: the write of `0xAC`, a read of 2 bytes, the write of
`0xAE`, a read of 2 bytes, and the lux is computed from these two words, whatever
they are (`0xFFFF` included: nothing is read again). A word is
`byte1 * 256 + byte0`. -/
theorem ReadLux_fixed_gain {σ : Type} (T : Transport σ) (M : Float32Model)
    (this : TSL2561 σ) (hg : this.gain = 1 ∨ this.gain = 16) :
    (this.ReadLux T M).1.gain = this.gain ∧
    ((this.ReadLux T M).2.2 = none →
      ∃ da di : List Byte,
        (this.ReadLux T M).1.i2c.trace = this.i2c.trace ++
          [Event.writeByte 0xAC none, Event.read 2 da none,
           Event.writeByte 0xAE none, Event.read 2 di none] ∧
        commands (this.ReadLux T M).1.i2c.trace = commands this.i2c.trace ++ [0xAC, 0xAE] ∧
        (this.ReadLux T M).2.1 =
          luxOf M (scaleGain this.gain (wordLE (fill 2 da)) (wordLE (fill 2 di))).1
            (scaleGain this.gain (wordLE (fill 2 da)) (wordLE (fill 2 di))).2) ∧
    (∀ (b0 b1 : Byte) (rest : List Byte),
      wordLE (fill 2 (b0 :: b1 :: rest)) = b1.val * 256 + b0.val) := by
  refine ⟨?_, ?_, wordLE_two⟩
  · rw [ReadLux_fixed_eq T M this hg]
    obtain ⟨h, evs, hs, _⟩ := twoReads_run T M this
    rw [hs]
  · intro hok
    rw [ReadLux_fixed_eq T M this hg] at hok
    obtain ⟨d1, d2, d3, d4, da, di, h1, h2, h3, h4⟩ := twoReads_success T M this hok
    have e := ReadLux_fixed_ok T M this d1 d2 d3 d4 da di hg h1 h2 h3 h4
    refine ⟨da, di, ?_, ?_, ?_⟩
    · rw [e]
    · rw [e]
      simp [commands]
    · rw [e]

/-- Witness of C15: a sensor at gain 16 whose two channels both read `0xFFFF`:
two commands, no re-read, the gain is still 16. -/
theorem ReadLux_fixed_gain_witness :
    ({ TSL2561.init [[0xFF, 0xFF], [0xFF, 0xFF]] with gain := 16 } : TSL2561 _).gain = 16 ∧
    ({ TSL2561.init [[0xFF, 0xFF], [0xFF, 0xFF]] with gain := 16 }.ReadLux replay
      Float32Model.plain).2.2 = none ∧
    ({ TSL2561.init [[0xFF, 0xFF], [0xFF, 0xFF]] with gain := 16 }.ReadLux replay
      Float32Model.plain).1.gain = 16 ∧
    commands ({ TSL2561.init [[0xFF, 0xFF], [0xFF, 0xFF]] with gain := 16 }.ReadLux replay
      Float32Model.plain).1.i2c.trace = [0xAC, 0xAE] := by
  have h := ReadLux_fixed_gain replay Float32Model.plain
    { TSL2561.init [[0xFF, 0xFF], [0xFF, 0xFF]] with gain := 16 } (Or.inr rfl)
  have hok : ({ TSL2561.init [[0xFF, 0xFF], [0xFF, 0xFF]] with gain := 16 }.ReadLux replay
      Float32Model.plain).2.2 = none := by decide
  obtain ⟨da, di, _, hc, _⟩ := h.2.1 hok
  exact ⟨rfl, hok, h.1, hc⟩

/-! ## TSL2561: the bus writes of ReadLux -/

/-- C16 (as the code has it): whatever the gain and the transport, `ReadLux`
writes nothing with `Write` (the gain register `0x81` is only written that way,
by `SetGain`) and the only command bytes it writes are `0xAC` and `0xAE`, so
never `0x81`. From an unset gain on a transport that never fails the fall-back
re-read writes `0xAC, 0xAE`; the stage before it wrote `0xAC, 0xAE` when the ir
channel was the saturated one, and `0xAC` alone when the full channel was. -/
theorem ReadLux_bus_writes {σ : Type} (T : Transport σ) (M : Float32Model)
    (this : TSL2561 σ) :
    blockWrites (this.ReadLux T M).1.i2c.trace = blockWrites this.i2c.trace ∧
    (∃ cs : List Byte,
      commands (this.ReadLux T M).1.i2c.trace = commands this.i2c.trace ++ cs ∧
      (∀ c ∈ cs, c = 0xAC ∨ c = 0xAE) ∧ (0x81 : Byte) ∉ cs) ∧
    (T.Reliable → this.gain = 0 → chanWord T this.i2c.dev 0xAC < 0xFFFF →
      0xFFFF ≤ chanWord T (chanDev T this.i2c.dev 0xAC) 0xAE →
        commands (this.ReadLux T M).1.i2c.trace
          = commands this.i2c.trace ++ ([0xAC, 0xAE] ++ [0xAC, 0xAE])) ∧
    (T.Reliable → this.gain = 0 → 0xFFFF ≤ chanWord T this.i2c.dev 0xAC →
        commands (this.ReadLux T M).1.i2c.trace
          = commands this.i2c.trace ++ ([0xAC] ++ [0xAC, 0xAE])) := by
  obtain ⟨h, g, evs, hs, ht, _, _, _, hb, hc⟩ := ReadLux_run T M this
  have htr : (this.ReadLux T M).1.i2c.trace = this.i2c.trace ++ evs := by
    rw [hs]; exact ht
  refine ⟨?_, ⟨commands evs, ?_, hc, ?_⟩, ?_, ?_⟩
  · rw [htr, blockWrites_append, hb, List.append_nil]
  · rw [htr, commands_append]
  · intro hmem
    rcases hc _ hmem with h1 | h1
    · exact absurd h1 (by decide)
    · exact absurd h1 (by decide)
  · intro hrel hg ha hi
    have hna : ¬ (0xFFFF ≤ chanWord T this.i2c.dev 0xAC) := by omega
    have hni : ¬ (chanWord T (chanDev T this.i2c.dev 0xAC) 0xAE < 0xFFFF) := by omega
    simp [TSL2561.ReadLux, hg, readFull_reliable T _ hrel, readIr_reliable T _ hrel, ha, hi,
      hna, hni, TSL2561.finishLux, scaleGain, commands_append, commands]
  · intro hrel hg ha
    have hna : ¬ (chanWord T this.i2c.dev 0xAC < 0xFFFF) := by omega
    simp [TSL2561.ReadLux, hg, readFull_reliable T _ hrel, readIr_reliable T _ hrel, ha,
      hna, TSL2561.finishLux, scaleGain, commands_append, commands]

/-- Witness of C16 as amended: the ir channel saturated (four commands), and the
full channel saturated (three commands). -/
theorem ReadLux_bus_writes_witness :
    replay.Reliable ∧
    (TSL2561.init [[0x10, 0x00], [0xFF, 0xFF], [0x10, 0x00], [0x08, 0x00]]).gain = 0 ∧
    commands ((TSL2561.init [[0x10, 0x00], [0xFF, 0xFF], [0x10, 0x00], [0x08, 0x00]]).ReadLux
      replay Float32Model.plain).1.i2c.trace = [0xAC, 0xAE, 0xAC, 0xAE] ∧
    commands ((TSL2561.init [[0xFF, 0xFF], [0x10, 0x00], [0x08, 0x00]]).ReadLux
      replay Float32Model.plain).1.i2c.trace = [0xAC, 0xAC, 0xAE] := by
  have h1 := ReadLux_bus_writes replay Float32Model.plain
    (TSL2561.init [[0x10, 0x00], [0xFF, 0xFF], [0x10, 0x00], [0x08, 0x00]])
  have h2 := ReadLux_bus_writes replay Float32Model.plain
    (TSL2561.init [[0xFF, 0xFF], [0x10, 0x00], [0x08, 0x00]])
  exact ⟨replay_reliable, rfl, h1.2.2.1 replay_reliable rfl (by decide) (by decide),
    h2.2.2.2 replay_reliable rfl (by decide)⟩

/-- Counterexample to C16: the gain is unset and the first full channel read is
`0xFFFF`. The first stage writes the command `0xAC` only (the ir channel is not
read); the fall-back re-read then writes `0xAC, 0xAE`. -/
theorem ReadLux_bus_writes_counterexample :
    (TSL2561.readFull replay
      { TSL2561.init [[0xFF, 0xFF], [0x10, 0x00], [0x08, 0x00]] with gain := 16 }).2.1
        = 0xFFFF ∧
    commands (TSL2561.readFull replay
      { TSL2561.init [[0xFF, 0xFF], [0x10, 0x00], [0x08, 0x00]] with gain := 16 }).1.i2c.trace
        = [0xAC] ∧
    commands ((TSL2561.init [[0xFF, 0xFF], [0x10, 0x00], [0x08, 0x00]]).ReadLux
      replay Float32Model.plain).1.i2c.trace = [0xAC] ++ [0xAC, 0xAE] ∧
    ([0xAC] : List Byte) ≠ [0xAC, 0xAE] := by
  refine ⟨by decide, by decide, by decide, by decide⟩

/-! ## TSL2561: the sign of the lux -/

/-- The lux in exact arithmetic, with `pw` in the place of `math.Pow`. -/
theorem luxOf_exact (pw : ℚ → ℚ → ℚ) (ambient ir : Nat) (ha : 0 < ambient)
    (hA : ambient < 65536) :
    luxOf (Float32Model.exact pw) ambient ir =
      if (ir : ℚ) / (ambient : ℚ) ≤ 0.52 then
        0.0315 * (ambient : ℚ) - 0.0593 * (ambient : ℚ) * pw ((ir : ℚ) / (ambient : ℚ)) 1.4
      else if (ir : ℚ) / (ambient : ℚ) ≤ 0.65 then
        0.0229 * (ambient : ℚ) - 0.0291 * (ir : ℚ)
      else if (ir : ℚ) / (ambient : ℚ) ≤ 0.80 then
        0.0157 * (ambient : ℚ) - 0.018 * (ir : ℚ)
      else if (ir : ℚ) / (ambient : ℚ) ≤ 1.3 then
        0.00338 * (ambient : ℚ) - 0.0026 * (ir : ℚ)
      else 0 := by
  rw [luxOf_chain _ ambient ir ha hA]
  simp only [Float32Model.exact, Float32Model.sub, Float32Model.mul, Float32Model.const]

/-- The real power `x ^ 1.4` is at most `x` on `[0, 1]`. -/
theorem rpow_le_self (x : ℝ) (h0 : 0 ≤ x) (h1 : x ≤ 1) :
    0 ≤ x ^ (1.4 : ℝ) ∧ x ^ (1.4 : ℝ) ≤ x := by
  refine ⟨Real.rpow_nonneg h0 _, ?_⟩
  rcases eq_or_lt_of_le h0 with h | h
  · rw [← h, Real.zero_rpow (by norm_num)]
  · have := Real.rpow_le_rpow_of_exponent_ge h h1 (show (1 : ℝ) ≤ 1.4 by norm_num)
    rwa [Real.rpow_one] at this

/-- C17: for a 16 bit `ambient > 0` and every `ir`, the piecewise formula of
`ReadLux` evaluated in exact real arithmetic (the real power `ratio ^ 1.4` in the
first band) is non-negative, and it is exactly 0 at the ratio 1.3. The lux of
`luxOf` in exact arithmetic is that formula with `pw` for the power; it is 0 at
the ratio 1.3, and it is non-negative as soon as `pw` does not exceed the real
power. -/
theorem luxOf_nonneg (pw : ℚ → ℚ → ℚ) (ambient ir : Nat) (ha : 0 < ambient)
    (hA : ambient < 65536) :
    (0 : ℝ) ≤
      (if (ir : ℚ) / (ambient : ℚ) ≤ 0.52 then
        0.0315 * (ambient : ℝ)
          - 0.0593 * (ambient : ℝ) * (((ir : ℝ) / (ambient : ℝ)) ^ (1.4 : ℝ))
      else if (ir : ℚ) / (ambient : ℚ) ≤ 0.65 then
        0.0229 * (ambient : ℝ) - 0.0291 * (ir : ℝ)
      else if (ir : ℚ) / (ambient : ℚ) ≤ 0.80 then
        0.0157 * (ambient : ℝ) - 0.018 * (ir : ℝ)
      else if (ir : ℚ) / (ambient : ℚ) ≤ 1.3 then
        0.00338 * (ambient : ℝ) - 0.0026 * (ir : ℝ)
      else 0) ∧
    luxOf (Float32Model.exact pw) ambient ir =
      (if (ir : ℚ) / (ambient : ℚ) ≤ 0.52 then
        0.0315 * (ambient : ℚ) - 0.0593 * (ambient : ℚ) * pw ((ir : ℚ) / (ambient : ℚ)) 1.4
      else if (ir : ℚ) / (ambient : ℚ) ≤ 0.65 then
        0.0229 * (ambient : ℚ) - 0.0291 * (ir : ℚ)
      else if (ir : ℚ) / (ambient : ℚ) ≤ 0.80 then
        0.0157 * (ambient : ℚ) - 0.018 * (ir : ℚ)
      else if (ir : ℚ) / (ambient : ℚ) ≤ 1.3 then
        0.00338 * (ambient : ℚ) - 0.0026 * (ir : ℚ)
      else 0) ∧
    ((ir : ℚ) / (ambient : ℚ) = 1.3 → luxOf (Float32Model.exact pw) ambient ir = 0) ∧
    ((∀ x : ℚ, 0 ≤ x → x ≤ 1 → ((pw x 1.4 : ℚ) : ℝ) ≤ (x : ℝ) ^ (1.4 : ℝ)) →
      0 ≤ luxOf (Float32Model.exact pw) ambient ir) := by
  have hA0 : (0 : ℚ) < (ambient : ℚ) := by exact_mod_cast ha
  have hAr : (0 : ℝ) < (ambient : ℝ) := by exact_mod_cast ha
  have hq0 : (0 : ℚ) ≤ (ir : ℚ) / (ambient : ℚ) := by positivity
  have he := luxOf_exact pw ambient ir ha hA
  -- a bound on the ratio, read in the reals
  have toReal : ∀ c : ℚ, (ir : ℚ) / (ambient : ℚ) ≤ c → (ir : ℝ) ≤ (c : ℝ) * (ambient : ℝ) := by
    intro c h
    have h2 := (div_le_iff₀ hA0).mp h
    exact_mod_cast h2
  -- the bands above 0.52, in rational arithmetic
  have hupper : 0.52 < (ir : ℚ) / (ambient : ℚ) →
      0 ≤ luxOf (Float32Model.exact pw) ambient ir := by
    intro h1
    rw [he, if_neg (not_le.mpr h1)]
    split_ifs with h2 h3 h4
    · have := (div_le_iff₀ hA0).mp h2
      linarith
    · have := (div_le_iff₀ hA0).mp h3
      linarith
    · have := (div_le_iff₀ hA0).mp h4
      linarith
    · exact le_refl 0
  refine ⟨?_, he, ?_, ?_⟩
  · split_ifs with h1 h2 h3 h4
    · have hr := toReal _ h1
      have e : ((0.52 : ℚ) : ℝ) = 0.52 := by norm_num
      rw [e] at hr
      have hr1 : (ir : ℝ) / (ambient : ℝ) ≤ 0.52 := (div_le_iff₀ hAr).mpr hr
      have hr0 : (0 : ℝ) ≤ (ir : ℝ) / (ambient : ℝ) := by positivity
      have hp := rpow_le_self _ hr0 (by linarith)
      nlinarith [mul_le_mul_of_nonneg_left (le_trans hp.2 hr1) hAr.le]
    · have hr := toReal _ h2
      have e : ((0.65 : ℚ) : ℝ) = 0.65 := by norm_num
      rw [e] at hr
      linarith
    · have hr := toReal _ h3
      have e : ((0.80 : ℚ) : ℝ) = 0.80 := by norm_num
      rw [e] at hr
      linarith
    · have hr := toReal _ h4
      have e : ((1.3 : ℚ) : ℝ) = 1.3 := by norm_num
      rw [e] at hr
      linarith
    · exact le_refl 0
  · intro h
    have h1 : ¬ ((ir : ℚ) / (ambient : ℚ) ≤ 0.52) := by rw [h]; norm_num
    have h2 : ¬ ((ir : ℚ) / (ambient : ℚ) ≤ 0.65) := by rw [h]; norm_num
    have h3 : ¬ ((ir : ℚ) / (ambient : ℚ) ≤ 0.80) := by rw [h]; norm_num
    have h4 : (ir : ℚ) / (ambient : ℚ) ≤ 1.3 := by rw [h]
    rw [he, if_neg h1, if_neg h2, if_neg h3, if_pos h4]
    have := (div_eq_iff hA0.ne.symm).mp h
    rw [this]; ring
  · intro hpw
    by_cases h1 : (ir : ℚ) / (ambient : ℚ) ≤ 0.52
    · rw [he, if_pos h1]
      have hb := hpw _ hq0 (by linarith)
      have hr : (((ir : ℚ) / (ambient : ℚ) : ℚ) : ℝ) ≤ 0.52 := by
        have : (((ir : ℚ) / (ambient : ℚ) : ℚ) : ℝ) ≤ ((0.52 : ℚ) : ℝ) := by
          exact_mod_cast h1
        norm_num at this ⊢
        exact this
      have hr0 : (0 : ℝ) ≤ (((ir : ℚ) / (ambient : ℚ) : ℚ) : ℝ) := by exact_mod_cast hq0
      have hp := rpow_le_self _ hr0 (by linarith)
      have hle : ((pw ((ir : ℚ) / (ambient : ℚ)) 1.4 : ℚ) : ℝ) ≤ ((0.52 : ℚ) : ℝ) := by
        have : ((0.52 : ℚ) : ℝ) = 0.52 := by norm_num
        rw [this]; linarith [hp.2]
      have hle2 : pw ((ir : ℚ) / (ambient : ℚ)) 1.4 ≤ 0.52 := by exact_mod_cast hle
      nlinarith [mul_le_mul_of_nonneg_left hle2 hA0.le]
    · exact hupper (not_le.mp h1)

/-- Witness of C17: `ambient = 10`, `ir = 13`, the ratio is exactly 1.3 and the
lux is 0; `ambient = 25`, `ir = 13` in the first band with `pw x y = x * x`. -/
theorem luxOf_nonneg_witness :
    0 < 10 ∧ 10 < 65536 ∧ ((13 : Nat) : ℚ) / ((10 : Nat) : ℚ) = 1.3 ∧
    luxOf (Float32Model.exact (fun x _ => x * x)) 10 13 = 0 ∧
    (∀ x : ℚ, 0 ≤ x → x ≤ 1 →
      ((((fun x _ => x * x) : ℚ → ℚ → ℚ) x 1.4 : ℚ) : ℝ) ≤ (x : ℝ) ^ (1.4 : ℝ)) ∧
    0 ≤ luxOf (Float32Model.exact (fun x _ => x * x)) 25 13 := by
  have hpw : ∀ x : ℚ, 0 ≤ x → x ≤ 1 →
      ((((fun x _ => x * x) : ℚ → ℚ → ℚ) x 1.4 : ℚ) : ℝ) ≤ (x : ℝ) ^ (1.4 : ℝ) := by
    intro x h0 h1
    have hx0 : (0 : ℝ) ≤ (x : ℝ) := by exact_mod_cast h0
    have hx1 : (x : ℝ) ≤ 1 := by exact_mod_cast h1
    push_cast
    rcases eq_or_lt_of_le hx0 with h | h
    · rw [← h, Real.zero_rpow (by norm_num)]; norm_num
    · have := Real.rpow_le_rpow_of_exponent_ge h hx1 (show (1.4 : ℝ) ≤ 2 by norm_num)
      rw [Real.rpow_two] at this
      nlinarith
  have h10 := luxOf_nonneg (fun x _ => x * x) 10 13 (by decide) (by decide)
  have h25 := luxOf_nonneg (fun x _ => x * x) 25 13 (by decide) (by decide)
  exact ⟨by decide, by decide, by norm_num, h10.2.2.1 (by norm_num), hpw,
    h25.2.2.2 hpw⟩

/-! ## TSL2561: a failure while the gain is unset -/

/-- `ReadLux` from an unset gain: the first stage, then either the fall-back
(two reads at gain 1) or the conversion. -/
theorem ReadLux_unset_eq {σ : Type} (T : Transport σ) (M : Float32Model) (this : TSL2561 σ)
    (hg : this.gain = 0) :
    this.ReadLux T M =
      match (this.firstStage T).2.2.2 with
      | some err => ((this.firstStage T).1, 0, some err)
      | none =>
        if (this.firstStage T).2.1 ≥ 0xFFFF ∨ (this.firstStage T).2.2.1 ≥ 0xFFFF then
          twoReads T M { (this.firstStage T).1 with gain := 1 }
        else (this.firstStage T).1.finishLux M (this.firstStage T).2.1
          (this.firstStage T).2.2.1 := by
  have hne : ¬ (this.gain = 1 ∨ this.gain = 16) := by rw [hg]; decide
  simp only [TSL2561.ReadLux, hne, if_false, hg, if_true, TSL2561.firstStage, twoReads]
  rcases h1 : TSL2561.readFull T { this with gain := 16 } with ⟨s1, a, e1⟩
  cases e1 with
  | some e => rfl
  | none =>
    simp only
    by_cases ha : a < 0xFFFF
    · simp only [ha, if_true]
      rcases h2 : TSL2561.readIr T s1 with ⟨s2, i, e2⟩
      cases e2 with
      | some e => rfl
      | none => rfl
    · simp only [ha, if_false]
      rfl

theorem firstStage_gain {σ : Type} (T : Transport σ) (this : TSL2561 σ) :
    (this.firstStage T).1.gain = 16 := by
  obtain ⟨h1, evs1, hs1, _⟩ := readFull_spec T { this with gain := 16 }
  unfold TSL2561.firstStage
  simp only
  rcases hr1 : TSL2561.readFull T { this with gain := 16 } with ⟨s1, a, e1⟩
  rw [hr1] at hs1
  simp only at hs1
  subst hs1
  cases e1 with
  | some e => rfl
  | none =>
    simp only
    by_cases ha : a < 0xFFFF
    · simp only [ha, if_true]
      obtain ⟨h2, evs2, hs2, _⟩ := readIr_spec T { this with i2c := h1, gain := 16 }
      rw [hs2]
    · simp only [ha, if_false]

theorem twoReads_gain {σ : Type} (T : Transport σ) (M : Float32Model) (s : TSL2561 σ) :
    (twoReads T M s).1.gain = s.gain := by
  obtain ⟨h, evs, hs, _⟩ := twoReads_run T M s
  rw [hs]

theorem twoReads_err_zero {σ : Type} (T : Transport σ) (M : Float32Model) (s : TSL2561 σ)
    (h : (twoReads T M s).2.2 ≠ none) : (twoReads T M s).2.1 = 0 := by
  obtain ⟨_, _, _, _, _, hz, _⟩ := twoReads_run T M s
  exact hz h

/-- C18: `ReadLux` called with the gain unset and returning an error returns the
value 0 and leaves a gain that is no longer unset. If the error comes from the
first stage (the read of the full channel, or of the ir channel after it) the
gain is left at 16. Otherwise the first stage succeeded, a channel was
saturated, the error comes from the fall-back re-read and the gain is left at 1.
The next `ReadLux` is then the pair of reads of the fixed gain path and keeps
that gain. -/
theorem ReadLux_unset_failure {σ : Type} (T : Transport σ) (M : Float32Model)
    (this : TSL2561 σ) (hg : this.gain = 0) (herr : (this.ReadLux T M).2.2 ≠ none) :
    (this.ReadLux T M).2.1 = 0 ∧
    ((this.ReadLux T M).1.gain = 16 ∨ (this.ReadLux T M).1.gain = 1) ∧
    ((this.firstStage T).2.2.2 ≠ none →
      (this.ReadLux T M).1.gain = 16 ∧
      (this.ReadLux T M).2.2 = (this.firstStage T).2.2.2) ∧
    ((this.firstStage T).2.2.2 = none →
      (this.ReadLux T M).1.gain = 1 ∧
      ((this.firstStage T).2.1 ≥ 0xFFFF ∨ (this.firstStage T).2.2.1 ≥ 0xFFFF) ∧
      this.ReadLux T M = twoReads T M { (this.firstStage T).1 with gain := 1 }) ∧
    (this.ReadLux T M).1.ReadLux T M = twoReads T M (this.ReadLux T M).1 ∧
    ((this.ReadLux T M).1.ReadLux T M).1.gain = (this.ReadLux T M).1.gain := by
  have he := ReadLux_unset_eq T M this hg
  have hfg := firstStage_gain T this
  have hstage1 : (this.firstStage T).2.2.2 ≠ none →
      (this.ReadLux T M).1.gain = 16 ∧
      (this.ReadLux T M).2.2 = (this.firstStage T).2.2.2 := by
    intro h
    rw [he]
    rcases hf : (this.firstStage T).2.2.2 with _ | e
    · exact absurd hf h
    · simp only
      exact ⟨hfg, trivial⟩
  have hstage2 : (this.firstStage T).2.2.2 = none →
      (this.ReadLux T M).1.gain = 1 ∧
      ((this.firstStage T).2.1 ≥ 0xFFFF ∨ (this.firstStage T).2.2.1 ≥ 0xFFFF) ∧
      this.ReadLux T M = twoReads T M { (this.firstStage T).1 with gain := 1 } := by
    intro h
    rw [he, h] at herr
    simp only at herr
    by_cases hsat : (this.firstStage T).2.1 ≥ 0xFFFF ∨ (this.firstStage T).2.2.1 ≥ 0xFFFF
    · have e2 : this.ReadLux T M = twoReads T M { (this.firstStage T).1 with gain := 1 } := by
        rw [he, h]
        simp only [hsat, if_true]
      refine ⟨?_, hsat, e2⟩
      rw [e2, twoReads_gain]
    · rw [if_neg hsat] at herr
      exact absurd rfl herr
  have hgain : (this.ReadLux T M).1.gain = 16 ∨ (this.ReadLux T M).1.gain = 1 := by
    by_cases h : (this.firstStage T).2.2.2 = none
    · exact Or.inr (hstage2 h).1
    · exact Or.inl (hstage1 h).1
  have hfix : (this.ReadLux T M).1.gain = 1 ∨ (this.ReadLux T M).1.gain = 16 := hgain.symm
  have hnext : (this.ReadLux T M).1.ReadLux T M = twoReads T M (this.ReadLux T M).1 :=
    ReadLux_fixed_eq T M _ hfix
  refine ⟨?_, hgain, hstage1, hstage2, hnext, ?_⟩
  · obtain ⟨_, _, _, _, _, _, hz, _⟩ := ReadLux_run T M this
    exact hz herr
  · rw [hnext, twoReads_gain]

/-- Witness of C18: the second bus operation (the read of the full channel)
fails: the gain is left at 16; the sixth one (the read of the full channel of
the fall-back) fails: the gain is left at 1. -/
theorem ReadLux_unset_failure_witness :
    (TSL2561.init [ok [], fail 4]).gain = 0 ∧
    ((TSL2561.init [ok [], fail 4]).ReadLux scripted Float32Model.plain).2.2
      = some { code := 4 } ∧
    ((TSL2561.init [ok [], fail 4]).ReadLux scripted Float32Model.plain).1.gain = 16 ∧
    ((TSL2561.init [ok [], ok [1, 0], ok [], ok [0xFF, 0xFF], ok [], fail 6]).ReadLux scripted
      Float32Model.plain).2.2 = some { code := 6 } ∧
    ((TSL2561.init [ok [], ok [1, 0], ok [], ok [0xFF, 0xFF], ok [], fail 6]).ReadLux scripted
      Float32Model.plain).1.gain = 1 ∧
    ((TSL2561.init [ok [], ok [1, 0], ok [], ok [0xFF, 0xFF], ok [], fail 6]).ReadLux scripted
      Float32Model.plain).2.1 = 0 := by
  have e1 : ((TSL2561.init [ok [], fail 4]).ReadLux scripted Float32Model.plain).2.2
      = some { code := 4 } := by decide
  have e2 : ((TSL2561.init [ok [], ok [1, 0], ok [], ok [0xFF, 0xFF], ok [], fail 6]).ReadLux
      scripted Float32Model.plain).2.2 = some { code := 6 } := by decide
  have h1 := ReadLux_unset_failure scripted Float32Model.plain
    (TSL2561.init [ok [], fail 4]) rfl (by rw [e1]; simp)
  have h2 := ReadLux_unset_failure scripted Float32Model.plain
    (TSL2561.init [ok [], ok [1, 0], ok [], ok [0xFF, 0xFF], ok [], fail 6]) rfl
    (by rw [e2]; simp)
  exact ⟨rfl, e1, (h1.2.2.1 (by decide)).1, e2, (h2.2.2.2.1 (by decide)).1, h2.1⟩

/-! ## TSL2561: the write of SetGain -/

/-- C19: for `g` different from the current gain, `SetGain(g)` records `g`
whatever the bus write answered. Apart from the `i2c` handle the sensor after
the call is the sensor before it with the gain `g`, for every transport, so
nothing in it tells a failed write from a successful one; the failure only shows
in the trace, where the write is followed by the sleep all the same. -/
theorem SetGain_discards_write {σ : Type} (T : Transport σ) (this : TSL2561 σ) (g : Int)
    (h : this.gain ≠ g) :
    (this.SetGain T g).gain = g ∧
    { this.SetGain T g with i2c := this.i2c } = { this with gain := g } ∧
    (∀ e : BusError,
      (T.write this.i2c.dev [0x81, if g = 1 then 0x02 else 0x12]).2 = some e →
        (this.SetGain T g).Gain = g ∧
        (this.SetGain T g).i2c.trace = this.i2c.trace ++
          [Event.write [0x81, if g = 1 then 0x02 else 0x12] (some e), Event.sleep 800]) ∧
    ((T.write this.i2c.dev [0x81, if g = 1 then 0x02 else 0x12]).2 = none →
        (this.SetGain T g).Gain = g ∧
        (this.SetGain T g).i2c.trace = this.i2c.trace ++
          [Event.write [0x81, if g = 1 then 0x02 else 0x12] none, Event.sleep 800]) := by
  have ht : (this.SetGain T g).i2c.trace = this.i2c.trace ++
      [Event.write [0x81, if g = 1 then 0x02 else 0x12]
          (T.write this.i2c.dev [0x81, if g = 1 then 0x02 else 0x12]).2,
        Event.sleep 800] := by
    by_cases h1 : g = 1
    · subst h1
      simp [TSL2561.SetGain, h, I2C.Write, I2C.Sleep]
    · simp [TSL2561.SetGain, h, h1, I2C.Write, I2C.Sleep]
  refine ⟨SetGain_gain T this g, ?_, ?_, ?_⟩
  · simp [TSL2561.SetGain, h]
  · intro e he
    refine ⟨SetGain_gain T this g, ?_⟩
    rw [ht, he]
  · intro he
    refine ⟨SetGain_gain T this g, ?_⟩
    rw [ht, he]

/-- Witness of C19: the write of `SetGain(16)` fails on a new sensor; the gain
is 16 all the same. -/
theorem SetGain_discards_write_witness :
    (TSL2561.init [fail 9]).gain ≠ 16 ∧
    (scripted.write (TSL2561.init [fail 9]).i2c.dev [0x81, 0x12]).2 = some { code := 9 } ∧
    ((TSL2561.init [fail 9]).SetGain scripted 16).Gain = 16 ∧
    ((TSL2561.init [fail 9]).SetGain scripted 16).i2c.trace
      = [Event.write [0x81, 0x12] (some { code := 9 }), Event.sleep 800] := by
  have h := SetGain_discards_write scripted (TSL2561.init [fail 9]) 16 (by decide)
  have h2 := h.2.2.1 { code := 9 } rfl
  exact ⟨by decide, rfl, h2.1, h2.2⟩

/-! ## The refresh controller -/

/-- `ReadTemperature` changes the sensor in its `i2c` field only. -/
theorem ReadTemperature_frame {σ : Type} (T : Transport σ) (M : Float32Model)
    (this : HTU21D σ) :
    (this.ReadTemperature T M).1 = { this with i2c := (this.ReadTemperature T M).1.i2c } := by
  rcases hw : T.writeByte this.i2c.dev 0xF3 with ⟨d1, e1⟩
  cases e1 with
  | some e => simp [HTU21D.ReadTemperature, I2C.WriteByte, hw]
  | none =>
    rcases hr : T.read d1 3 with ⟨d2, data, e2⟩
    cases e2 <;> simp [HTU21D.ReadTemperature, I2C.WriteByte, I2C.Read, I2C.Sleep, hw, hr]

/-- `ReadHumidity` changes the sensor in its `i2c` field only. -/
theorem ReadHumidity_frame {σ : Type} (T : Transport σ) (M : Float32Model)
    (this : HTU21D σ) :
    (this.ReadHumidity T M).1 = { this with i2c := (this.ReadHumidity T M).1.i2c } := by
  rcases hw : T.writeByte this.i2c.dev 0xF5 with ⟨d1, e1⟩
  cases e1 with
  | some e => simp [HTU21D.ReadHumidity, I2C.WriteByte, hw]
  | none =>
    rcases hr : T.read d1 3 with ⟨d2, data, e2⟩
    cases e2 <;> simp [HTU21D.ReadHumidity, I2C.WriteByte, I2C.Read, I2C.Sleep, hw, hr]

/-- The two reads of the HTU21D, with their assignments, leave `refresh` and
`quit` as they were. -/
theorem HTU21D.measure_frame {σ : Type} (T : Transport σ) (M : Float32Model)
    (this : HTU21D σ) :
    (({ (this.ReadTemperature T M).1 with
        Temperature := (this.ReadTemperature T M).2.1 } : HTU21D σ).ReadHumidity T M).1.refresh
      = this.refresh ∧
    (({ (this.ReadTemperature T M).1 with
        Temperature := (this.ReadTemperature T M).2.1 } : HTU21D σ).ReadHumidity T M).1.quit
      = this.quit := by
  have h1 := ReadTemperature_frame T M this
  have h2 := ReadHumidity_frame T M
    { (this.ReadTemperature T M).1 with Temperature := (this.ReadTemperature T M).2.1 }
  constructor
  · rw [h2]; simp only; rw [h1]
  · rw [h2]; simp only; rw [h1]

theorem refreshStep_quit_htu {σ : Type} (T : Transport σ) (M : Float32Model)
    (this : HTU21D σ) : (this.refreshStep T M).quit = this.quit := by
  have h := (HTU21D.measure_frame T M this).2
  unfold HTU21D.refreshStep
  simp only
  exact h

theorem refreshStep_quit_tsl {σ : Type} (T : Transport σ) (M : Float32Model)
    (this : TSL2561 σ) : (this.refreshStep T M).quit = this.quit := by
  obtain ⟨h, g, evs, hs, _⟩ := ReadLux_run T M this
  unfold TSL2561.refreshStep
  simp only
  rw [hs]

theorem TSL2561.ReadLux_refresh {σ : Type} (T : Transport σ) (M : Float32Model)
    (this : TSL2561 σ) : (this.ReadLux T M).1.refresh = this.refresh ∧
      (this.ReadLux T M).1.quit = this.quit := by
  obtain ⟨h, g, evs, hs, _⟩ := ReadLux_run T M this
  rw [hs]
  exact ⟨rfl, rfl⟩

/-- With the flag `refresh` set, `StartRefresh` returns at once. -/
theorem StartRefresh_noop_htu {σ : Type} (T : Transport σ) (M : Float32Model)
    (s : Running (HTU21D σ)) (h : s.sensor.refresh = true) : HTU21D.StartRefresh T M s = s := by
  simp only [HTU21D.StartRefresh, h, if_true]

/-- With the flag `refresh` set, `StartRefresh` returns at once. -/
theorem StartRefresh_noop_tsl {σ : Type} (T : Transport σ) (M : Float32Model)
    (s : Running (TSL2561 σ)) (h : s.sensor.refresh = true) :
    TSL2561.StartRefresh T M s = s := by
  simp only [TSL2561.StartRefresh, h, if_true]

/-- C13: the code at the failing input. On a new HTU21D or TSL2561 (no
goroutine, `refresh` false), two calls of `StartRefresh` with no step of the
first goroutine between them launch two goroutines: the flag `refresh` is set by
the goroutine, not by `StartRefresh`, so the second call still reads it false.
The second call is the no-op of the claim only when the first goroutine has run
its first statement before it. On a device that never fails the two calls of
the HTU21D measure twice (four command bytes). -/
theorem StartRefresh_twice {σ : Type} (T : Transport σ) (M : Float32Model)
    (address : Byte) (bus : Int) (dev : σ) :
    (HTU21D.StartRefresh T M (HTU21D.StartRefresh T M (HTU21D.fresh address bus dev))).tasks
        = [Task.launched, Task.launched] ∧
    (TSL2561.StartRefresh T M (TSL2561.StartRefresh T M (TSL2561.fresh address bus dev))).tasks
        = [Task.launched, Task.launched] ∧
    HTU21D.StartRefresh T M
        (HTU21D.taskStep T M (HTU21D.StartRefresh T M (HTU21D.fresh address bus dev)) 0)
      = HTU21D.taskStep T M (HTU21D.StartRefresh T M (HTU21D.fresh address bus dev)) 0 ∧
    TSL2561.StartRefresh T M
        (TSL2561.taskStep T M (TSL2561.StartRefresh T M (TSL2561.fresh address bus dev)) 0)
      = TSL2561.taskStep T M (TSL2561.StartRefresh T M (TSL2561.fresh address bus dev)) 0 ∧
    commands (HTU21D.StartRefresh replay M (HTU21D.StartRefresh replay M
      (HTU21D.fresh HTU21D_ADDR 1 []))).sensor.i2c.trace = [0xF3, 0xF5, 0xF3, 0xF5] := by
  have hH : ∀ s : Running (HTU21D σ), s.sensor.refresh = false →
      (HTU21D.StartRefresh T M s).tasks = s.tasks ++ [Task.launched] ∧
      (HTU21D.StartRefresh T M s).sensor.refresh = false := by
    intro s hs
    have hf := (HTU21D.measure_frame T M s.sensor).1
    simp only [HTU21D.StartRefresh, hs, Bool.false_eq_true, if_false, true_and]
    rw [hf, hs]
  have hL : ∀ s : Running (TSL2561 σ), s.sensor.refresh = false →
      (TSL2561.StartRefresh T M s).tasks = s.tasks ++ [Task.launched] ∧
      (TSL2561.StartRefresh T M s).sensor.refresh = false := by
    intro s hs
    have hf := (TSL2561.ReadLux_refresh T M s.sensor).1
    simp only [TSL2561.StartRefresh, hs, Bool.false_eq_true, if_false, true_and]
    rw [hf, hs]
  have h1 := hH (HTU21D.fresh address bus dev) rfl
  have l1 := hL (TSL2561.fresh address bus dev) rfl
  refine ⟨?_, ?_, ?_, ?_, ?_⟩
  · have h2 := hH _ h1.2
    rw [h2.1, h1.1]; rfl
  · have l2 := hL _ l1.2
    rw [l2.1, l1.1]; rfl
  · have ht : (HTU21D.StartRefresh T M (HTU21D.fresh address bus dev)).tasks
        = [Task.launched] := h1.1
    have hr : (HTU21D.taskStep T M (HTU21D.StartRefresh T M (HTU21D.fresh address bus dev))
        0).sensor.refresh = true := by
      simp [HTU21D.taskStep, ht]
    exact StartRefresh_noop_htu T M _ hr
  · have ht : (TSL2561.StartRefresh T M (TSL2561.fresh address bus dev)).tasks
        = [Task.launched] := l1.1
    have hr : (TSL2561.taskStep T M (TSL2561.StartRefresh T M (TSL2561.fresh address bus dev))
        0).sensor.refresh = true := by
      simp [TSL2561.taskStep, ht]
    exact StartRefresh_noop_tsl T M _ hr
  · have e : ∀ this : HTU21D (List (List Byte)), (this.ReadTemperature replay M).1.i2c.trace
        = this.i2c.trace ++ [Event.writeByte 0xF3 none, Event.sleep 100,
            Event.read 3 (this.i2c.dev.headD []) none] := by
      intro this
      rw [ReadTemperature_ok replay M this this.i2c.dev this.i2c.dev.tail
        (this.i2c.dev.headD []) rfl rfl]
    have e2 : ∀ this : HTU21D (List (List Byte)), (this.ReadHumidity replay M).1.i2c.trace
        = this.i2c.trace ++ [Event.writeByte 0xF5 none, Event.sleep 100,
            Event.read 3 (this.i2c.dev.headD []) none] := by
      intro this
      rw [ReadHumidity_ok replay M this this.i2c.dev this.i2c.dev.tail
        (this.i2c.dev.headD []) rfl rfl]
    have hs : ∀ s : Running (HTU21D (List (List Byte))), s.sensor.refresh = false →
        commands (HTU21D.StartRefresh replay M s).sensor.i2c.trace
          = commands s.sensor.i2c.trace ++ [0xF3, 0xF5] ∧
        (HTU21D.StartRefresh replay M s).sensor.refresh = false := by
      intro s hs
      have hf := (HTU21D.measure_frame replay M s.sensor).1
      simp only [HTU21D.StartRefresh, hs, Bool.false_eq_true, if_false]
      refine ⟨?_, by rw [hf, hs]⟩
      rw [e2]
      simp only
      rw [e]
      simp [commands]
    have k1 := hs (HTU21D.fresh HTU21D_ADDR 1 []) rfl
    have k2 := hs _ k1.2
    rw [k2.1, k1.1]
    rfl

/-! ## The refresh controller: StopRefresh -/

/-- On a nil channel `quit` a step of a goroutine leaves the channel nil, the
caller where it was and every goroutine short of `returned`. -/
theorem taskStep_nil_htu {σ : Type} (T : Transport σ) (M : Float32Model)
    (s : Running (HTU21D σ)) (i : Nat) (hq : s.sensor.quit = none) :
    (HTU21D.taskStep T M s i).sensor.quit = none ∧
    (HTU21D.taskStep T M s i).caller = s.caller ∧
    (HTU21D.taskStep T M s i).tasks.length = s.tasks.length ∧
    (Task.returned ∉ s.tasks → Task.returned ∉ (HTU21D.taskStep T M s i).tasks) := by
  unfold HTU21D.taskStep
  rcases ht : s.tasks.get? i with _ | t
  · exact ⟨hq, rfl, rfl, id⟩
  · cases t with
    | launched =>
      refine ⟨hq, rfl, by simp, ?_⟩
      intro hn hm
      rcases List.mem_or_eq_of_mem_set hm with h | h
      · exact hn h
      · exact absurd h (by decide)
    | looping =>
      simp only [hq, Option.isSome_none, Bool.false_eq_true, false_and, if_false]
      exact ⟨by rw [refreshStep_quit_htu]; exact hq, trivial, trivial, id⟩
    | returned => exact ⟨hq, rfl, rfl, id⟩

theorem taskStep_nil_tsl {σ : Type} (T : Transport σ) (M : Float32Model)
    (s : Running (TSL2561 σ)) (i : Nat) (hq : s.sensor.quit = none) :
    (TSL2561.taskStep T M s i).sensor.quit = none ∧
    (TSL2561.taskStep T M s i).caller = s.caller ∧
    (TSL2561.taskStep T M s i).tasks.length = s.tasks.length ∧
    (Task.returned ∉ s.tasks → Task.returned ∉ (TSL2561.taskStep T M s i).tasks) := by
  unfold TSL2561.taskStep
  rcases ht : s.tasks.get? i with _ | t
  · exact ⟨hq, rfl, rfl, id⟩
  · cases t with
    | launched =>
      refine ⟨hq, rfl, by simp, ?_⟩
      intro hn hm
      rcases List.mem_or_eq_of_mem_set hm with h | h
      · exact hn h
      · exact absurd h (by decide)
    | looping =>
      simp only [hq, Option.isSome_none, Bool.false_eq_true, false_and, if_false]
      exact ⟨by rw [refreshStep_quit_tsl]; exact hq, trivial, trivial, id⟩
    | returned => exact ⟨hq, rfl, rfl, id⟩

theorem run_nil_htu {σ : Type} (T : Transport σ) (M : Float32Model) (sched : List Nat) :
    ∀ s : Running (HTU21D σ), s.sensor.quit = none →
      (HTU21D.run T M s sched).sensor.quit = none ∧
      (HTU21D.run T M s sched).caller = s.caller ∧
      (HTU21D.run T M s sched).tasks.length = s.tasks.length ∧
      (Task.returned ∉ s.tasks → Task.returned ∉ (HTU21D.run T M s sched).tasks) := by
  induction sched with
  | nil => intro s hq; exact ⟨hq, rfl, rfl, id⟩
  | cons i rest ih =>
    intro s hq
    obtain ⟨h1, h2, h3, h4⟩ := taskStep_nil_htu T M s i hq
    obtain ⟨k1, k2, k3, k4⟩ := ih (HTU21D.taskStep T M s i) h1
    have e : HTU21D.run T M s (i :: rest) = HTU21D.run T M (HTU21D.taskStep T M s i) rest := rfl
    rw [e]
    exact ⟨k1, by rw [k2, h2], by rw [k3, h3], fun hn => k4 (h4 hn)⟩

theorem run_nil_tsl {σ : Type} (T : Transport σ) (M : Float32Model) (sched : List Nat) :
    ∀ s : Running (TSL2561 σ), s.sensor.quit = none →
      (TSL2561.run T M s sched).sensor.quit = none ∧
      (TSL2561.run T M s sched).caller = s.caller ∧
      (TSL2561.run T M s sched).tasks.length = s.tasks.length ∧
      (Task.returned ∉ s.tasks → Task.returned ∉ (TSL2561.run T M s sched).tasks) := by
  induction sched with
  | nil => intro s hq; exact ⟨hq, rfl, rfl, id⟩
  | cons i rest ih =>
    intro s hq
    obtain ⟨h1, h2, h3, h4⟩ := taskStep_nil_tsl T M s i hq
    obtain ⟨k1, k2, k3, k4⟩ := ih (TSL2561.taskStep T M s i) h1
    have e : TSL2561.run T M s (i :: rest) = TSL2561.run T M (TSL2561.taskStep T M s i) rest :=
      rfl
    rw [e]
    exact ⟨k1, by rw [k2, h2], by rw [k3, h3], fun hn => k4 (h4 hn)⟩

theorem started_htu {σ : Type} (T : Transport σ) (M : Float32Model)
    (address : Byte) (bus : Int) (dev : σ) :
    (HTU21D.StartRefresh T M (HTU21D.fresh address bus dev)).sensor.quit = none ∧
    (HTU21D.StartRefresh T M (HTU21D.fresh address bus dev)).tasks = [Task.launched] ∧
    (HTU21D.StartRefresh T M (HTU21D.fresh address bus dev)).caller = Caller.ready := by
  have hf := (HTU21D.measure_frame T M (HTU21D.fresh address bus dev).sensor).2
  have hr : (HTU21D.fresh address bus dev).sensor.refresh = false := rfl
  simp only [HTU21D.StartRefresh, hr, Bool.false_eq_true, if_false]
  exact ⟨hf, rfl, rfl⟩

theorem started_tsl {σ : Type} (T : Transport σ) (M : Float32Model)
    (address : Byte) (bus : Int) (dev : σ) :
    (TSL2561.StartRefresh T M (TSL2561.fresh address bus dev)).sensor.quit = none ∧
    (TSL2561.StartRefresh T M (TSL2561.fresh address bus dev)).tasks = [Task.launched] ∧
    (TSL2561.StartRefresh T M (TSL2561.fresh address bus dev)).caller = Caller.ready := by
  have hf := (TSL2561.ReadLux_refresh T M (TSL2561.fresh address bus dev).sensor).2
  have hr : (TSL2561.fresh address bus dev).sensor.refresh = false := rfl
  simp only [TSL2561.StartRefresh, hr, Bool.false_eq_true, if_false]
  exact ⟨hf, rfl, rfl⟩

/-- C14: the code at the failing input. The constructors leave the channel
`quit` nil. On a sensor built by `NewHTU21D` or `NewTSL2561`, after
`StartRefresh` and any steps `before` of its goroutine, `StopRefresh` puts the
caller in the send on the nil channel; whatever steps `after` the goroutine then
takes, the caller is still in the send (`StopRefresh` has not returned) and the
one goroutine has not returned: its `select` never finds the receive ready.
`StopRefresh` itself leaves the sensor, so the published values, as they were. -/
theorem StopRefresh_blocks {σ : Type} (T : Transport σ) (M : Float32Model)
    (address : Byte) (bus : Int) (dev : σ) (before after : List Nat) :
    (HTU21D.make address bus dev).quit = none ∧
    (TSL2561.make address bus dev).quit = none ∧
    (HTU21D.run T M (HTU21D.StopRefresh (HTU21D.run T M
      (HTU21D.StartRefresh T M (HTU21D.fresh address bus dev)) before)) after).caller
        = Caller.sending ∧
    alive (HTU21D.run T M (HTU21D.StopRefresh (HTU21D.run T M
      (HTU21D.StartRefresh T M (HTU21D.fresh address bus dev)) before)) after).tasks
        ≠ [] ∧
    (TSL2561.run T M (TSL2561.StopRefresh (TSL2561.run T M
      (TSL2561.StartRefresh T M (TSL2561.fresh address bus dev)) before)) after).caller
        = Caller.sending ∧
    alive (TSL2561.run T M (TSL2561.StopRefresh (TSL2561.run T M
      (TSL2561.StartRefresh T M (TSL2561.fresh address bus dev)) before)) after).tasks
        ≠ [] ∧
    (∀ s : Running (HTU21D σ), (HTU21D.StopRefresh s).sensor = s.sensor) ∧
    (∀ s : Running (TSL2561 σ), (TSL2561.StopRefresh s).sensor = s.sensor) := by
  have alive_of : ∀ ts : List Task, ts.length = 1 → Task.returned ∉ ts → alive ts ≠ [] := by
    intro ts hl hn
    match ts, hl with
    | [t], _ =>
      have : t ≠ Task.returned := fun h => hn (by rw [h]; simp)
      simp [alive, this]
  refine ⟨rfl, rfl, ?_, ?_, ?_, ?_, fun _ => rfl, fun _ => rfl⟩
  · obtain ⟨q0, t0, c0⟩ := started_htu T M address bus dev
    obtain ⟨q1, c1, l1, n1⟩ := run_nil_htu T M before _ q0
    obtain ⟨q2, c2, l2, n2⟩ := run_nil_htu T M after (HTU21D.StopRefresh (HTU21D.run T M
      (HTU21D.StartRefresh T M (HTU21D.fresh address bus dev)) before)) q1
    rw [c2]; rfl
  · obtain ⟨q0, t0, c0⟩ := started_htu T M address bus dev
    obtain ⟨q1, c1, l1, n1⟩ := run_nil_htu T M before _ q0
    obtain ⟨q2, c2, l2, n2⟩ := run_nil_htu T M after (HTU21D.StopRefresh (HTU21D.run T M
      (HTU21D.StartRefresh T M (HTU21D.fresh address bus dev)) before)) q1
    apply alive_of
    · rw [l2]
      show (HTU21D.run T M _ before).tasks.length = 1
      rw [l1, t0]; rfl
    · apply n2
      show Task.returned ∉ (HTU21D.run T M _ before).tasks
      apply n1
      rw [t0]; simp
  · obtain ⟨q0, t0, c0⟩ := started_tsl T M address bus dev
    obtain ⟨q1, c1, l1, n1⟩ := run_nil_tsl T M before _ q0
    obtain ⟨q2, c2, l2, n2⟩ := run_nil_tsl T M after (TSL2561.StopRefresh (TSL2561.run T M
      (TSL2561.StartRefresh T M (TSL2561.fresh address bus dev)) before)) q1
    rw [c2]; rfl
  · obtain ⟨q0, t0, c0⟩ := started_tsl T M address bus dev
    obtain ⟨q1, c1, l1, n1⟩ := run_nil_tsl T M before _ q0
    obtain ⟨q2, c2, l2, n2⟩ := run_nil_tsl T M after (TSL2561.StopRefresh (TSL2561.run T M
      (TSL2561.StartRefresh T M (TSL2561.fresh address bus dev)) before)) q1
    apply alive_of
    · rw [l2]
      show (TSL2561.run T M _ before).tasks.length = 1
      rw [l1, t0]; rfl
    · apply n2
      show Task.returned ∉ (TSL2561.run T M _ before).tasks
      apply n1
      rw [t0]; simp

end Sensors
